import Mathlib

set_option autoImplicit false
set_option maxHeartbeats 4000000

/-!
Verification development for the StoryScript front-end (lexer + recursive
descent parser).  The definitions below are a shallow embedding of the C++
sources `src/lexer.cpp`, `src/parser.cpp`, `include/token.h`,
`include/lexer.h`, `include/parser.h` and the AST header.

Modelling conventions:
* the source text is a `List Char`; `std::string::substr` becomes
  drop/take; C++ `int` line/column counters become `Int` (so that the
  `column - lexeme.length()` computation in `makeToken` is exact);
* every C++ loop or recursion is embedded structurally on a fuel
  argument; lexer loops receive the canonical fuel
  `source.length + 1 - position`, which is sufficient because every
  iteration of every lexer loop advances `position` (the fuel-0 fallback
  is unreachable from reachable cursors);
* the parser's (potentially non-terminating) recursion takes an explicit
  fuel argument; running out of fuel produces `Except.error s` carrying
  the parser state at exhaustion.  `Except.ok` results correspond exactly
  to terminating runs of the C++ parser;
* `std::cerr` diagnostics are modelled by the `errors : List String`
  field (one entry per `error(...)` call), alongside the `errorOccurred`
  flag that `hadError()` reports;
* number literals (`std::stod`) are modelled as exact decimal rationals;
  the claims under study only involve small integer literals, where the
  two semantics agree.
-/

namespace StoryScript

/-- `TokenType` from include/token.h (same constructor order). -/
inductive TokenType where
  | ROOM | ITEM | VAR | FUNCTION | IF | ELSE | WHILE | FOR | RETURN
  | WHEN | ENTERED | SAY | GOTO | TRUE | FALSE | NOT | AND | OR
  | IDENTIFIER | STRING | NUMBER
  | PLUS | MINUS | MULTIPLY | DIVIDE | MODULO | ASSIGN | EQ | NEQ
  | LT | GT | LTE | GTE
  | LPAREN | RPAREN | LBRACE | RBRACE | COLON | COMMA | SEMICOLON | DOT
  | EOF_TOKEN | UNKNOWN | COMMENT
  deriving DecidableEq, Repr

/-- `Token` from include/token.h: kind, lexeme text, 1-based line/column. -/
structure Token where
  type : TokenType
  lexeme : String
  line : Int
  column : Int
  deriving DecidableEq, Repr

/-- `SourceLocation` from include/token.h. -/
structure SourceLocation where
  filename : String
  line : Int
  column : Int
  deriving DecidableEq, Repr

/-- The four mutable scanning fields of the C++ `Lexer`
(`position`, `start`, `line`, `column`); `source` and `filename` are
immutable members and are passed separately. -/
structure Cursor where
  position : Nat
  start : Nat
  line : Int
  column : Int
  deriving DecidableEq, Repr

/-- Initial lexer state (`position = 0`, `start = 0`, `line = 1`,
`column = 1`, per the default member initializers in include/lexer.h). -/
def initCursor : Cursor := ⟨0, 0, 1, 1⟩

/-- The default `filename` constructor argument of `Lexer`. -/
def scriptFilename : String := "script.story"

/-- `source.substr(start, len)`. -/
def substr (src : List Char) (start len : Nat) : String :=
  ⟨(src.drop start).take len⟩

namespace Lexer

/-- `Lexer::initKeywords` (the `unordered_map` is modelled as an
association list; only exact-key lookup is ever performed). -/
def initKeywords : List (String × TokenType) :=
  [("room", .ROOM), ("item", .ITEM), ("var", .VAR), ("function", .FUNCTION),
   ("if", .IF), ("else", .ELSE), ("while", .WHILE), ("for", .FOR),
   ("return", .RETURN), ("when", .WHEN), ("entered", .ENTERED),
   ("say", .SAY), ("goto", .GOTO), ("true", .TRUE), ("false", .FALSE),
   ("not", .NOT), ("and", .AND), ("or", .OR)]

/-- `Lexer::isAtEnd`. -/
def isAtEnd (src : List Char) (c : Cursor) : Bool :=
  c.position ≥ src.length

/-- `Lexer::peek`. -/
def peek (src : List Char) (c : Cursor) : Char :=
  if isAtEnd src c then '\x00' else src.getD c.position '\x00'

/-- `Lexer::peekNext`. -/
def peekNext (src : List Char) (c : Cursor) : Char :=
  if c.position + 1 ≥ src.length then '\x00' else src.getD (c.position + 1) '\x00'

/-- The state change of `Lexer::advance` (`position++; column++`). -/
def advOne (c : Cursor) : Cursor :=
  { c with position := c.position + 1, column := c.column + 1 }

/-- `Lexer::advance`: returns `source[position]` and the stepped cursor. -/
def advance (src : List Char) (c : Cursor) : Char × Cursor :=
  (src.getD c.position '\x00', advOne c)

/-- `Lexer::match`. -/
def matchCh (src : List Char) (expected : Char) (c : Cursor) : Bool × Cursor :=
  if isAtEnd src c ∨ src.getD c.position '\x00' ≠ expected then (false, c)
  else (true, advOne c)

/-- `Lexer::makeToken`: lexeme is `source.substr(start, position - start)`,
column is `column - lexeme.length()`. -/
def makeToken (src : List Char) (type : TokenType) (c : Cursor) : Token :=
  let lexeme := substr src c.start (c.position - c.start)
  ⟨type, lexeme, c.line, c.column - (lexeme.length : Int)⟩

/-- `Lexer::errorToken`: an `UNKNOWN` token carrying the message. -/
def errorToken (message : String) (c : Cursor) : Token :=
  ⟨.UNKNOWN, message, c.line, c.column⟩

/-- `Lexer::getCurrentLocation`. -/
def getCurrentLocation (c : Cursor) : SourceLocation :=
  ⟨scriptFilename, c.line, c.column⟩

/-- The loop of `Lexer::skipWhitespace`. -/
def skipWhitespaceGo (src : List Char) : Nat → Cursor → Cursor
  | 0, c => c
  | fuel + 1, c =>
    let ch := peek src c
    if ch = ' ' ∨ ch = '\r' ∨ ch = '\t' then
      skipWhitespaceGo src fuel (advOne c)
    else if ch = '\n' then
      skipWhitespaceGo src fuel (advOne { c with line := c.line + 1, column := 1 })
    else c

/-- `Lexer::skipWhitespace` (canonical fuel: one per remaining char). -/
def skipWhitespace (src : List Char) (c : Cursor) : Cursor :=
  skipWhitespaceGo src (src.length + 1 - c.position) c

/-- The scanning loop of `Lexer::identifier`. -/
def identifierGo (src : List Char) : Nat → Cursor → Cursor
  | 0, c => c
  | fuel + 1, c =>
    if (peek src c).isAlphanum ∨ peek src c = '_' then
      identifierGo src fuel (advOne c)
    else c

/-- `Lexer::identifier`: consume the rest of the name, then classify via
the keyword table. -/
def identifier (src : List Char) (c : Cursor) : Token × Cursor :=
  let c := identifierGo src (src.length + 1 - c.position) c
  let text := substr src c.start (c.position - c.start)
  let type := (initKeywords.lookup text).getD TokenType.IDENTIFIER
  (makeToken src type c, c)

/-- The digit-scanning loop used by `Lexer::number`. -/
def digitsGo (src : List Char) : Nat → Cursor → Cursor
  | 0, c => c
  | fuel + 1, c =>
    if (peek src c).isDigit then digitsGo src fuel (advOne c) else c

/-- `Lexer::number`: whole part, then optional `.` + fraction. -/
def number (src : List Char) (c : Cursor) : Token × Cursor :=
  let c := digitsGo src (src.length + 1 - c.position) c
  let c :=
    if peek src c = '.' ∧ (peekNext src c).isDigit then
      let c := advOne c
      digitsGo src (src.length + 1 - c.position) c
    else c
  (makeToken src .NUMBER c, c)

/-- The scanning loop of `Lexer::string` (newlines update line/column but
do not terminate the string). -/
def stringGo (src : List Char) : Nat → Cursor → Cursor
  | 0, c => c
  | fuel + 1, c =>
    if peek src c ≠ '"' ∧ ¬ isAtEnd src c then
      if peek src c = '\n' then
        stringGo src fuel (advOne { c with line := c.line + 1, column := 1 })
      else
        stringGo src fuel (advOne c)
    else c

/-- `Lexer::string`: unterminated strings yield the error token, otherwise
the closing quote is consumed and a STRING token produced. -/
def string (src : List Char) (c : Cursor) : Token × Cursor :=
  let c := stringGo src (src.length + 1 - c.position) c
  if isAtEnd src c then (errorToken "Unterminated string." c, c)
  else
    let c := advOne c
    (makeToken src .STRING c, c)

/-- The comment-skipping loop inside `Lexer::nextToken` (case `'/'`). -/
def commentGo (src : List Char) : Nat → Cursor → Cursor
  | 0, c => c
  | fuel + 1, c =>
    if peek src c ≠ '\n' ∧ ¬ isAtEnd src c then commentGo src fuel (advOne c)
    else c

/-- The `switch` statement of `Lexer::nextToken`, applied to the consumed
character `ch` (the result of `advance()`): either a finished token with
the cursor after it (`inl`), or — for a `//` comment — the cursor after
the skipped comment text, from which `nextToken` continues (`inr`). -/
def scanToken (src : List Char) (ch : Char) (c : Cursor) : (Token × Cursor) ⊕ Cursor :=
  if ch.isAlpha ∨ ch = '_' then .inl (identifier src c)
  else if ch.isDigit then .inl (number src c)
  else match ch with
    | '(' => .inl (makeToken src .LPAREN c, c)
    | ')' => .inl (makeToken src .RPAREN c, c)
    | '{' => .inl (makeToken src .LBRACE c, c)
    | '}' => .inl (makeToken src .RBRACE c, c)
    | ':' => .inl (makeToken src .COLON c, c)
    | ',' => .inl (makeToken src .COMMA c, c)
    | ';' => .inl (makeToken src .SEMICOLON c, c)
    | '.' => .inl (makeToken src .DOT c, c)
    | '+' => .inl (makeToken src .PLUS c, c)
    | '-' => .inl (makeToken src .MINUS c, c)
    | '*' => .inl (makeToken src .MULTIPLY c, c)
    | '/' =>
      if (matchCh src '/' c).1 then
        .inr (commentGo src (src.length + 1 - (matchCh src '/' c).2.position) (matchCh src '/' c).2)
      else .inl (makeToken src .DIVIDE (matchCh src '/' c).2, (matchCh src '/' c).2)
    | '=' =>
      .inl (makeToken src (if (matchCh src '=' c).1 then .EQ else .ASSIGN) (matchCh src '=' c).2,
            (matchCh src '=' c).2)
    | '!' =>
      .inl (makeToken src (if (matchCh src '=' c).1 then .NEQ else .NOT) (matchCh src '=' c).2,
            (matchCh src '=' c).2)
    | '<' =>
      .inl (makeToken src (if (matchCh src '=' c).1 then .LTE else .LT) (matchCh src '=' c).2,
            (matchCh src '=' c).2)
    | '>' =>
      .inl (makeToken src (if (matchCh src '=' c).1 then .GTE else .GT) (matchCh src '=' c).2,
            (matchCh src '=' c).2)
    | '"' => .inl (string src c)
    | _ => .inl (errorToken "Unexpected character." c, c)

/-- `Lexer::nextToken`, fuelled for the self-recursion after a `//`
comment.  Each recursion has consumed at least the two `/` characters, so
the canonical fuel `source.length + 1 - position` suffices; the fuel-0
fallback (unreachable from reachable cursors) returns a benign
end-of-input token. -/
def nextTokenGo (src : List Char) : Nat → Cursor → Token × Cursor
  | 0, c => (⟨.EOF_TOKEN, "", c.line, c.column⟩, { c with start := c.position })
  | fuel + 1, c =>
    let c := skipWhitespace src c
    let c := { c with start := c.position }
    if isAtEnd src c then (makeToken src .EOF_TOKEN c, c)
    else
      match scanToken src (src.getD c.position '\x00') (advOne c) with
      | .inl r => r
      | .inr c => nextTokenGo src fuel c

/-- `Lexer::nextToken`. -/
def nextToken (src : List Char) (c : Cursor) : Token × Cursor :=
  nextTokenGo src (src.length + 1 - c.position) c

/-- `Lexer::peekToken`: save position/start/line/column, call
`nextToken`, restore the saved fields, return the token. -/
def peekToken (src : List Char) (c : Cursor) : Token × Cursor :=
  let r := nextToken src c
  (r.1, { r.2 with position := c.position, start := c.start,
                   line := c.line, column := c.column })

/-- `Lexer::identifierType` (unused helper in the C++ code). -/
def identifierType (src : List Char) (c : Cursor) : TokenType :=
  (initKeywords.lookup (substr src c.start (c.position - c.start))).getD .IDENTIFIER

/-- The `n`-th result of repeatedly calling `nextToken` starting from
cursor `c` (`lexIter src c 0` is the first call). -/
def lexIter (src : List Char) (c : Cursor) : Nat → Token × Cursor
  | 0 => nextToken src c
  | n + 1 => nextToken src (lexIter src c n).2

end Lexer

/-! ## AST model (ast.h)

The C++ class hierarchy is flattened into inductive types.  A
`unique_ptr<Expression>` may legitimately hold null (the parser's
`parsePrimary` returns a null expression on error), so every child
expression position is `Option Expression`.  The `BlockStmt` subclass is
represented both as a `Statement` constructor (statement position) and as
the standalone structure `BlockStmt` (room events, function bodies). -/

/-- `Value = std::variant<double, std::string, bool>`; doubles are
modelled as exact decimal rationals. -/
inductive Value where
  | num (v : Rat)
  | str (s : String)
  | bool (b : Bool)
  deriving DecidableEq, Repr

/-- Expression nodes (`LiteralExpr`, `VariableExpr`, `BinaryExpr`,
`UnaryExpr`, `CallExpr`). -/
inductive Expression where
  | LiteralExpr (location : SourceLocation) (value : Value)
  | VariableExpr (location : SourceLocation) (name : Token)
  | BinaryExpr (location : SourceLocation) (left : Option Expression)
      (op : Token) (right : Option Expression)
  | UnaryExpr (location : SourceLocation) (op : Token) (right : Option Expression)
  | CallExpr (location : SourceLocation) (callee : Option Expression)
      (paren : Token) (arguments : List (Option Expression))

/-- The `location` field shared by all expression nodes. -/
def Expression.location : Expression → SourceLocation
  | .LiteralExpr l _ => l
  | .VariableExpr l _ => l
  | .BinaryExpr l _ _ _ => l
  | .UnaryExpr l _ _ => l
  | .CallExpr l _ _ _ => l

/-- C++ `expr->location` on a possibly-null `unique_ptr<Expression>`.
Dereferencing null here is undefined behaviour (a crash) in the C++ code;
it is modelled by a sentinel location.  No claim under study reaches this
case with a null expression. -/
def locOf : Option Expression → SourceLocation
  | some e => e.location
  | none => ⟨"<null>", 0, 0⟩

/-- The `dynamic_cast<VariableExpr*>` test in `parseAssignment`
(a null pointer dynamic_casts to null, hence `false` for `none`). -/
def Expression.isVariable : Expression → Bool
  | .VariableExpr _ _ => true
  | _ => false

/-- `dynamic_cast<VariableExpr*>(expr.get()) != nullptr`. -/
def exprIsVariable : Option Expression → Bool
  | some e => e.isVariable
  | none => false

/-- Statement nodes.  The `BlockStmt` subclass is inlined as a
constructor; `FunctionStmt` nodes never occur in statement position in
parser output (they go to `Program::functions`) and are kept separate. -/
inductive Statement where
  | ExpressionStmt (location : SourceLocation) (expression : Option Expression)
  | VarStmt (location : SourceLocation) (name : Token) (initializer : Option Expression)
  | BlockStmt (location : SourceLocation) (statements : List Statement)
  | IfStmt (location : SourceLocation) (condition : Option Expression)
      (thenBranch : Statement) (elseBranch : Option Statement)
  | WhileStmt (location : SourceLocation) (condition : Option Expression)
      (body : Statement)
  | ReturnStmt (location : SourceLocation) (keyword : Token) (value : Option Expression)
  | SayStmt (location : SourceLocation) (message : Option Expression)
  | GotoStmt (location : SourceLocation) (destination : Option Expression)

/-- Standalone `BlockStmt` node (result type of `parseBlock`). -/
structure BlockStmt where
  location : SourceLocation
  statements : List Statement

/-- `FunctionStmt` node. -/
structure FunctionStmt where
  location : SourceLocation
  name : Token
  params : List Token
  body : BlockStmt

/-- `Item` node. -/
structure Item where
  location : SourceLocation
  name : Token
  properties : List (String × Option Expression)

/-- `Room` node. -/
structure Room where
  location : SourceLocation
  name : Token
  properties : List (String × Option Expression)
  items : List Item
  events : List (String × BlockStmt)

/-- `Program` root: rooms, global statements and functions, each appended
in source order. -/
structure Program where
  location : SourceLocation
  rooms : List Room
  statements : List Statement
  functions : List FunctionStmt

/-- `std::stod` restricted to the lexeme shapes the lexer produces for
NUMBER tokens (digits optionally followed by `.` digits), modelled as an
exact decimal rational. -/
def stod (s : String) : Rat :=
  let l := s.toList
  let intPart := l.takeWhile Char.isDigit
  let rest := l.dropWhile Char.isDigit
  let intVal : Nat := intPart.foldl (fun acc c => 10 * acc + (c.toNat - '0'.toNat)) 0
  match rest with
  | '.' :: frac =>
    let fracDigits := frac.takeWhile Char.isDigit
    let fracVal : Nat := fracDigits.foldl (fun acc c => 10 * acc + (c.toNat - '0'.toNat)) 0
    (intVal : Rat) + (fracVal : Rat) / ((10 : Rat) ^ fracDigits.length)
  | _ => (intVal : Rat)

/-- `lexeme.substr(1, lexeme.length() - 2)`: strip the surrounding quote
characters of a STRING lexeme. -/
def stripQuotes (s : String) : String :=
  ⟨(s.toList.drop 1).take (s.length - 2)⟩

/-! ## Parser (parser.cpp) -/

/-- The parser's mutable state: `current`/`previous` tokens, the
`errorOccurred` flag behind `hadError()`, the sequence of diagnostic
messages written by `Parser::error` (one entry per call), and the lexer's
cursor (the parser owns its lexer by reference). -/
structure PState where
  current : Token
  previous : Token
  errorOccurred : Bool
  errors : List String
  lex : Cursor
  deriving DecidableEq, Repr

namespace Parser

/-- `Parser::advance`: shift `current` into `previous` and pull the next
token from the lexer. -/
def advanceP (src : List Char) (s : PState) : PState :=
  let r := Lexer.nextToken src s.lex
  { s with previous := s.current, current := r.1, lex := r.2 }

/-- `Parser::check`. -/
def check (s : PState) (type : TokenType) : Bool :=
  decide (s.current.type = type)

/-- `Parser::error`: set the flag and record the diagnostic message. -/
def error (s : PState) (message : String) : PState :=
  { s with errorOccurred := true, errors := s.errors ++ [message] }

/-- `Parser::match(TokenType)`. -/
def matchT (src : List Char) (type : TokenType) (s : PState) : Bool × PState :=
  if check s type then (true, advanceP src s) else (false, s)

/-- `Parser::match(const std::vector<TokenType>&)`. -/
def matchL (src : List Char) (types : List TokenType) (s : PState) : Bool × PState :=
  if types.any (check s) then (true, advanceP src s) else (false, s)

/-- `Parser::consume`: advance and return the consumed token on a match,
otherwise record the error and return the (unconsumed) current token. -/
def consume (src : List Char) (type : TokenType) (message : String) (s : PState) :
    Token × PState :=
  if check s type then
    let s := advanceP src s
    (s.previous, s)
  else
    (s.current, error s message)

/-- The loop of `Parser::synchronize`.  (In the C++ code `synchronize` is
reachable only from the `catch` handler in `parseProgram`; none of the
modelled operations throws, so it is dead code on every modelled path.) -/
def synchronizeGo (src : List Char) : Nat → PState → PState
  | 0, s => s
  | fuel + 1, s =>
    if ¬ check s .EOF_TOKEN then
      if s.previous.type = .SEMICOLON then s
      else if s.current.type ∈ [TokenType.ROOM, .ITEM, .FUNCTION, .VAR, .IF,
                                .WHILE, .RETURN, .SAY, .GOTO] then s
      else synchronizeGo src fuel (advanceP src s)
    else s

/-- `Parser::synchronize`: skip the offending token, then scan to a sync
point. -/
def synchronize (src : List Char) (fuel : Nat) (s : PState) : PState :=
  synchronizeGo src fuel (advanceP src s)

/-- The do-while loop collecting function parameters in
`Parser::parseFunction`. -/
def paramsGo (src : List Char) : Nat → List Token → PState →
    Except PState (List Token × PState)
  | 0, _, s => .error s
  | fuel + 1, parameters, s =>
    let (p, s) := consume src .IDENTIFIER "Expected parameter name." s
    let parameters := parameters ++ [p]
    let (m, s) := matchT src .COMMA s
    if m then paramsGo src fuel parameters s else pure (parameters, s)

mutual

/-- The top-level loop of `Parser::parseProgram`.  Running out of fuel
returns `Except.error` carrying the parser state at exhaustion; the C++
loop has no bound, so `Except.ok` results are exactly its terminating
runs. -/
def parseProgramLoop (src : List Char) : Nat → SourceLocation → List Room →
    List FunctionStmt → List Statement → PState → Except PState (Program × PState)
  | 0, _, _, _, _, s => .error s
  | fuel + 1, location, rooms, functions, statements, s =>
    if ¬ check s .EOF_TOKEN then
      let (m, s) := matchT src .ROOM s
      if m then do
        let (r, s) ← parseRoom src fuel s
        parseProgramLoop src fuel location (rooms ++ [r]) functions statements s
      else
        let (m, s) := matchT src .FUNCTION s
        if m then do
          let (f, s) ← parseFunction src fuel s
          parseProgramLoop src fuel location rooms (functions ++ [f]) statements s
        else do
          let (st, s) ← parseStatement src fuel s
          parseProgramLoop src fuel location rooms functions (statements ++ [st]) s
    else
      pure (Program.mk location rooms statements functions, s)

/-- `Parser::parseProgram`. -/
def parseProgram (src : List Char) : Nat → PState → Except PState (Program × PState)
  | 0, s => .error s
  | fuel + 1, s =>
    let location := Lexer.getCurrentLocation s.lex
    parseProgramLoop src fuel location [] [] [] s

/-- `Parser::parseRoom` (header part). -/
def parseRoom (src : List Char) : Nat → PState → Except PState (Room × PState)
  | 0, s => .error s
  | fuel + 1, s =>
    let location := Lexer.getCurrentLocation s.lex
    let (name, s) := consume src .IDENTIFIER "Expected room name." s
    let (_, s) := consume src .LBRACE "Expected '\x7b' after room name." s
    roomLoop src fuel location name [] [] [] s

/-- The body loop of `Parser::parseRoom`. -/
def roomLoop (src : List Char) : Nat → SourceLocation → Token →
    List (String × Option Expression) → List Item → List (String × BlockStmt) →
    PState → Except PState (Room × PState)
  | 0, _, _, _, _, _, s => .error s
  | fuel + 1, location, name, properties, items, events, s =>
    if ¬ check s .RBRACE ∧ ¬ check s .EOF_TOKEN then
      let (m, s) := matchT src .ITEM s
      if m then do
        let (it, s) ← parseItem src fuel s
        roomLoop src fuel location name properties (items ++ [it]) events s
      else
        let (m, s) := matchT src .WHEN s
        if m then do
          let (eventType, s) := consume src .IDENTIFIER "Expected event type after 'when'." s
          let (body, s) ← parseBlock src fuel s
          roomLoop src fuel location name properties items
            (events ++ [(eventType.lexeme, body)]) s
        else do
          let (propertyName, s) := consume src .IDENTIFIER "Expected property name." s
          let (_, s) := consume src .COLON "Expected ':' after property name." s
          let (value, s) ← parseExpression src fuel s
          let (_, s) := consume src .SEMICOLON "Expected ';' after property value." s
          roomLoop src fuel location name (properties ++ [(propertyName.lexeme, value)])
            items events s
    else
      let (_, s) := consume src .RBRACE "Expected '\x7d' after room body." s
      pure (Room.mk location name properties items events, s)

/-- `Parser::parseItem` (header part). -/
def parseItem (src : List Char) : Nat → PState → Except PState (Item × PState)
  | 0, s => .error s
  | fuel + 1, s =>
    let location := Lexer.getCurrentLocation s.lex
    let (name, s) := consume src .IDENTIFIER "Expected item name." s
    let (_, s) := consume src .LBRACE "Expected '\x7b' after item name." s
    itemLoop src fuel location name [] s

/-- The body loop of `Parser::parseItem`. -/
def itemLoop (src : List Char) : Nat → SourceLocation → Token →
    List (String × Option Expression) → PState → Except PState (Item × PState)
  | 0, _, _, _, s => .error s
  | fuel + 1, location, name, properties, s =>
    if ¬ check s .RBRACE ∧ ¬ check s .EOF_TOKEN then do
      let (propertyName, s) := consume src .IDENTIFIER "Expected property name." s
      let (_, s) := consume src .COLON "Expected ':' after property name." s
      let (value, s) ← parseExpression src fuel s
      let (_, s) := consume src .SEMICOLON "Expected ';' after property value." s
      itemLoop src fuel location name (properties ++ [(propertyName.lexeme, value)]) s
    else
      let (_, s) := consume src .RBRACE "Expected '\x7d' after item body." s
      pure (Item.mk location name properties, s)

/-- `Parser::parseFunction`. -/
def parseFunction (src : List Char) : Nat → PState → Except PState (FunctionStmt × PState)
  | 0, s => .error s
  | fuel + 1, s => do
    let location := Lexer.getCurrentLocation s.lex
    let (name, s) := consume src .IDENTIFIER "Expected function name." s
    let (_, s) := consume src .LPAREN "Expected '(' after function name." s
    let (parameters, s) ←
      if ¬ check s .RPAREN then paramsGo src fuel [] s else pure ([], s)
    let (_, s) := consume src .RPAREN "Expected ')' after parameters." s
    let (_, s) := consume src .LBRACE "Expected '\x7b' before function body." s
    let (body, s) ← parseBlock src fuel s
    pure (FunctionStmt.mk location name parameters body, s)

/-- `Parser::parseStatement`. -/
def parseStatement (src : List Char) : Nat → PState → Except PState (Statement × PState)
  | 0, s => .error s
  | fuel + 1, s =>
    let (m, s) := matchT src .IF s
    if m then parseIfStatement src fuel s else
    let (m, s) := matchT src .WHILE s
    if m then parseWhileStatement src fuel s else
    let (m, s) := matchT src .VAR s
    if m then parseVarDeclaration src fuel s else
    let (m, s) := matchT src .LBRACE s
    if m then do
      let (b, s) ← parseBlock src fuel s
      pure (Statement.BlockStmt b.location b.statements, s)
    else
    let (m, s) := matchT src .RETURN s
    if m then parseReturnStatement src fuel s else
    let (m, s) := matchT src .SAY s
    if m then parseSayStatement src fuel s else
    let (m, s) := matchT src .GOTO s
    if m then parseGotoStatement src fuel s else
    parseExpressionStatement src fuel s

/-- `Parser::parseVarDeclaration`. -/
def parseVarDeclaration (src : List Char) : Nat → PState → Except PState (Statement × PState)
  | 0, s => .error s
  | fuel + 1, s => do
    let location := Lexer.getCurrentLocation s.lex
    let (name, s) := consume src .IDENTIFIER "Expected variable name." s
    let (m, s) := matchT src .ASSIGN s
    let (initializer, s) ←
      if m then parseExpression src fuel s else pure ((none : Option Expression), s)
    let (_, s) := consume src .SEMICOLON "Expected ';' after variable declaration." s
    pure (Statement.VarStmt location name initializer, s)

/-- `Parser::parseBlock` (header part). -/
def parseBlock (src : List Char) : Nat → PState → Except PState (BlockStmt × PState)
  | 0, s => .error s
  | fuel + 1, s =>
    let location := Lexer.getCurrentLocation s.lex
    blockLoop src fuel location [] s

/-- The statement loop of `Parser::parseBlock`. -/
def blockLoop (src : List Char) : Nat → SourceLocation → List Statement → PState →
    Except PState (BlockStmt × PState)
  | 0, _, _, s => .error s
  | fuel + 1, location, statements, s =>
    if ¬ check s .RBRACE ∧ ¬ check s .EOF_TOKEN then do
      let (st, s) ← parseStatement src fuel s
      blockLoop src fuel location (statements ++ [st]) s
    else
      let (_, s) := consume src .RBRACE "Expected '\x7d' after block." s
      pure (BlockStmt.mk location statements, s)

/-- `Parser::parseIfStatement`. -/
def parseIfStatement (src : List Char) : Nat → PState → Except PState (Statement × PState)
  | 0, s => .error s
  | fuel + 1, s => do
    let location := Lexer.getCurrentLocation s.lex
    let (_, s) := consume src .LPAREN "Expected '(' after 'if'." s
    let (condition, s) ← parseExpression src fuel s
    let (_, s) := consume src .RPAREN "Expected ')' after if condition." s
    let (thenBranch, s) ← parseStatement src fuel s
    let (m, s) := matchT src .ELSE s
    let (elseBranch, s) ←
      if m then do
        let (e, s) ← parseStatement src fuel s
        pure (some e, s)
      else pure ((none : Option Statement), s)
    pure (Statement.IfStmt location condition thenBranch elseBranch, s)

/-- `Parser::parseWhileStatement`. -/
def parseWhileStatement (src : List Char) : Nat → PState → Except PState (Statement × PState)
  | 0, s => .error s
  | fuel + 1, s => do
    let location := Lexer.getCurrentLocation s.lex
    let (_, s) := consume src .LPAREN "Expected '(' after 'while'." s
    let (condition, s) ← parseExpression src fuel s
    let (_, s) := consume src .RPAREN "Expected ')' after while condition." s
    let (body, s) ← parseStatement src fuel s
    pure (Statement.WhileStmt location condition body, s)

/-- `Parser::parseReturnStatement`. -/
def parseReturnStatement (src : List Char) : Nat → PState → Except PState (Statement × PState)
  | 0, s => .error s
  | fuel + 1, s => do
    let location := Lexer.getCurrentLocation s.lex
    let keyword := s.previous
    let (value, s) ←
      if ¬ check s .SEMICOLON then parseExpression src fuel s
      else pure ((none : Option Expression), s)
    let (_, s) := consume src .SEMICOLON "Expected ';' after return value." s
    pure (Statement.ReturnStmt location keyword value, s)

/-- `Parser::parseSayStatement`. -/
def parseSayStatement (src : List Char) : Nat → PState → Except PState (Statement × PState)
  | 0, s => .error s
  | fuel + 1, s => do
    let location := Lexer.getCurrentLocation s.lex
    let (message, s) ← parseExpression src fuel s
    let (_, s) := consume src .SEMICOLON "Expected ';' after message." s
    pure (Statement.SayStmt location message, s)

/-- `Parser::parseGotoStatement`. -/
def parseGotoStatement (src : List Char) : Nat → PState → Except PState (Statement × PState)
  | 0, s => .error s
  | fuel + 1, s => do
    let location := Lexer.getCurrentLocation s.lex
    let (_, s) := consume src .LPAREN "Expected '(' after 'goto'." s
    let (destination, s) ← parseExpression src fuel s
    let (_, s) := consume src .RPAREN "Expected ')' after goto destination." s
    let (_, s) := consume src .SEMICOLON "Expected ';' after goto statement." s
    pure (Statement.GotoStmt location destination, s)

/-- `Parser::parseExpressionStatement`. -/
def parseExpressionStatement (src : List Char) : Nat → PState →
    Except PState (Statement × PState)
  | 0, s => .error s
  | fuel + 1, s => do
    let location := Lexer.getCurrentLocation s.lex
    let (expr, s) ← parseExpression src fuel s
    let (_, s) := consume src .SEMICOLON "Expected ';' after expression." s
    pure (Statement.ExpressionStmt location expr, s)

/-- `Parser::parseExpression`. -/
def parseExpression (src : List Char) : Nat → PState →
    Except PState (Option Expression × PState)
  | 0, s => .error s
  | fuel + 1, s => parseAssignment src fuel s

/-- `Parser::parseAssignment` (right-associative via direct recursion;
a non-variable target records "Invalid assignment target." and the
left-hand expression is returned unchanged). -/
def parseAssignment (src : List Char) : Nat → PState →
    Except PState (Option Expression × PState)
  | 0, s => .error s
  | fuel + 1, s => do
    let (expr, s) ← parseLogicalOr src fuel s
    let (m, s) := matchT src .ASSIGN s
    if m then do
      let equals := s.previous
      let (value, s) ← parseAssignment src fuel s
      if exprIsVariable expr then
        pure (some (Expression.BinaryExpr (locOf expr) expr equals value), s)
      else
        pure (expr, error s "Invalid assignment target.")
    else
      pure (expr, s)

/-- `Parser::parseLogicalOr` (header part). -/
def parseLogicalOr (src : List Char) : Nat → PState →
    Except PState (Option Expression × PState)
  | 0, s => .error s
  | fuel + 1, s => do
    let (expr, s) ← parseLogicalAnd src fuel s
    orLoop src fuel expr s

/-- The folding loop of `parseLogicalOr`. -/
def orLoop (src : List Char) : Nat → Option Expression → PState →
    Except PState (Option Expression × PState)
  | 0, _, s => .error s
  | fuel + 1, expr, s =>
    let (m, s) := matchT src .OR s
    if m then do
      let op := s.previous
      let (right, s) ← parseLogicalAnd src fuel s
      orLoop src fuel (some (Expression.BinaryExpr (locOf expr) expr op right)) s
    else pure (expr, s)

/-- `Parser::parseLogicalAnd` (header part). -/
def parseLogicalAnd (src : List Char) : Nat → PState →
    Except PState (Option Expression × PState)
  | 0, s => .error s
  | fuel + 1, s => do
    let (expr, s) ← parseEquality src fuel s
    andLoop src fuel expr s

/-- The folding loop of `parseLogicalAnd`. -/
def andLoop (src : List Char) : Nat → Option Expression → PState →
    Except PState (Option Expression × PState)
  | 0, _, s => .error s
  | fuel + 1, expr, s =>
    let (m, s) := matchT src .AND s
    if m then do
      let op := s.previous
      let (right, s) ← parseEquality src fuel s
      andLoop src fuel (some (Expression.BinaryExpr (locOf expr) expr op right)) s
    else pure (expr, s)

/-- `Parser::parseEquality` (header part). -/
def parseEquality (src : List Char) : Nat → PState →
    Except PState (Option Expression × PState)
  | 0, s => .error s
  | fuel + 1, s => do
    let (expr, s) ← parseComparison src fuel s
    eqLoop src fuel expr s

/-- The folding loop of `parseEquality` (`==`, `!=`). -/
def eqLoop (src : List Char) : Nat → Option Expression → PState →
    Except PState (Option Expression × PState)
  | 0, _, s => .error s
  | fuel + 1, expr, s =>
    let (m, s) := matchL src [.EQ, .NEQ] s
    if m then do
      let op := s.previous
      let (right, s) ← parseComparison src fuel s
      eqLoop src fuel (some (Expression.BinaryExpr (locOf expr) expr op right)) s
    else pure (expr, s)

/-- `Parser::parseComparison` (header part). -/
def parseComparison (src : List Char) : Nat → PState →
    Except PState (Option Expression × PState)
  | 0, s => .error s
  | fuel + 1, s => do
    let (expr, s) ← parseTerm src fuel s
    compLoop src fuel expr s

/-- The folding loop of `parseComparison` (`>`, `>=`, `<`, `<=`). -/
def compLoop (src : List Char) : Nat → Option Expression → PState →
    Except PState (Option Expression × PState)
  | 0, _, s => .error s
  | fuel + 1, expr, s =>
    let (m, s) := matchL src [.GT, .GTE, .LT, .LTE] s
    if m then do
      let op := s.previous
      let (right, s) ← parseTerm src fuel s
      compLoop src fuel (some (Expression.BinaryExpr (locOf expr) expr op right)) s
    else pure (expr, s)

/-- `Parser::parseTerm` (header part). -/
def parseTerm (src : List Char) : Nat → PState →
    Except PState (Option Expression × PState)
  | 0, s => .error s
  | fuel + 1, s => do
    let (expr, s) ← parseFactor src fuel s
    termLoop src fuel expr s

/-- The folding loop of `parseTerm` (`+`, `-`). -/
def termLoop (src : List Char) : Nat → Option Expression → PState →
    Except PState (Option Expression × PState)
  | 0, _, s => .error s
  | fuel + 1, expr, s =>
    let (m, s) := matchL src [.PLUS, .MINUS] s
    if m then do
      let op := s.previous
      let (right, s) ← parseFactor src fuel s
      termLoop src fuel (some (Expression.BinaryExpr (locOf expr) expr op right)) s
    else pure (expr, s)

/-- `Parser::parseFactor` (header part). -/
def parseFactor (src : List Char) : Nat → PState →
    Except PState (Option Expression × PState)
  | 0, s => .error s
  | fuel + 1, s => do
    let (expr, s) ← parseUnary src fuel s
    factorLoop src fuel expr s

/-- The folding loop of `parseFactor` (`*`, `/`, `%`). -/
def factorLoop (src : List Char) : Nat → Option Expression → PState →
    Except PState (Option Expression × PState)
  | 0, _, s => .error s
  | fuel + 1, expr, s =>
    let (m, s) := matchL src [.MULTIPLY, .DIVIDE, .MODULO] s
    if m then do
      let op := s.previous
      let (right, s) ← parseUnary src fuel s
      factorLoop src fuel (some (Expression.BinaryExpr (locOf expr) expr op right)) s
    else pure (expr, s)

/-- `Parser::parseUnary` (`-`, `!` prefix, right-associative). -/
def parseUnary (src : List Char) : Nat → PState →
    Except PState (Option Expression × PState)
  | 0, s => .error s
  | fuel + 1, s =>
    let (m, s) := matchL src [.MINUS, .NOT] s
    if m then do
      let op := s.previous
      let (right, s) ← parseUnary src fuel s
      pure (some (Expression.UnaryExpr (locOf right) op right), s)
    else parseCall src fuel s

/-- `Parser::parseCall` (header part). -/
def parseCall (src : List Char) : Nat → PState →
    Except PState (Option Expression × PState)
  | 0, s => .error s
  | fuel + 1, s => do
    let (expr, s) ← parsePrimary src fuel s
    callLoop src fuel expr s

/-- The postfix loop of `parseCall`: call arguments and property access
(the latter replaces the base expression by a bare variable reference). -/
def callLoop (src : List Char) : Nat → Option Expression → PState →
    Except PState (Option Expression × PState)
  | 0, _, s => .error s
  | fuel + 1, expr, s =>
    let (m, s) := matchT src .LPAREN s
    if m then do
      let (expr, s) ← finishCall src fuel expr s
      callLoop src fuel expr s
    else
      let (m, s) := matchT src .DOT s
      if m then
        let (name, s) := consume src .IDENTIFIER "Expected property name after '.'." s
        let location := Lexer.getCurrentLocation s.lex
        callLoop src fuel (some (Expression.VariableExpr location name)) s
      else pure (expr, s)

/-- `Parser::finishCall`. -/
def finishCall (src : List Char) : Nat → Option Expression → PState →
    Except PState (Option Expression × PState)
  | 0, _, s => .error s
  | fuel + 1, callee, s => do
    let (arguments, s) ←
      if ¬ check s .RPAREN then argsLoop src fuel [] s
      else pure (([] : List (Option Expression)), s)
    let (paren, s) := consume src .RPAREN "Expected ')' after arguments." s
    pure (some (Expression.CallExpr (locOf callee) callee paren arguments), s)

/-- The do-while argument loop inside `finishCall`. -/
def argsLoop (src : List Char) : Nat → List (Option Expression) → PState →
    Except PState (List (Option Expression) × PState)
  | 0, _, s => .error s
  | fuel + 1, arguments, s => do
    let (a, s) ← parseExpression src fuel s
    let arguments := arguments ++ [a]
    let (m, s) := matchT src .COMMA s
    if m then argsLoop src fuel arguments s else pure (arguments, s)

/-- `Parser::parsePrimary`: literals, identifiers, grouping; otherwise
record "Expected expression." and return a null expression WITHOUT
consuming the offending token. -/
def parsePrimary (src : List Char) : Nat → PState →
    Except PState (Option Expression × PState)
  | 0, s => .error s
  | fuel + 1, s =>
    let location := Lexer.getCurrentLocation s.lex
    let (m, s) := matchT src .FALSE s
    if m then pure (some (Expression.LiteralExpr location (.bool false)), s) else
    let (m, s) := matchT src .TRUE s
    if m then pure (some (Expression.LiteralExpr location (.bool true)), s) else
    let (m, s) := matchT src .NUMBER s
    if m then pure (some (Expression.LiteralExpr location (.num (stod s.previous.lexeme))), s) else
    let (m, s) := matchT src .STRING s
    if m then
      pure (some (Expression.LiteralExpr location (.str (stripQuotes s.previous.lexeme))), s)
    else
    let (m, s) := matchT src .IDENTIFIER s
    if m then pure (some (Expression.VariableExpr location s.previous), s) else
    let (m, s) := matchT src .LPAREN s
    if m then do
      let (expr, s) ← parseExpression src fuel s
      let (_, s) := consume src .RPAREN "Expected ')' after expression." s
      pure (expr, s)
    else
      pure ((none : Option Expression), error s "Expected expression.")

end

/-- The parser state right after the constructor (which performs one
`advance()`; the C++ `current`/`previous` members start uninitialized and
are modelled by a dummy token). -/
def initState (src : List Char) : PState :=
  advanceP src { current := ⟨.UNKNOWN, "", 0, 0⟩, previous := ⟨.UNKNOWN, "", 0, 0⟩,
                 errorOccurred := false, errors := [], lex := initCursor }

/-- `Parser::parse` over a fresh parser on source `src`.  (The C++
`parseProgram` wraps each top-level item in try/catch; no modelled
operation throws — the only C++ throw site is `std::stod` on literals
exceeding the double range, which no claim involves — so the catch and
`synchronize` are dead code here.) -/
def parse (src : List Char) (fuel : Nat) : Except PState (Program × PState) :=
  parseProgram src fuel (initState src)

end Parser

/-! ## Observation helpers and concrete claim inputs -/

/-- The diagnostics recorded in the final parser state (for both
terminating and fuel-exhausted runs). -/
def errsOf : Except PState (Program × PState) → List String
  | .error s => s.errors
  | .ok (_, s) => s.errors

/-- The `hadError()` flag in the final parser state. -/
def hadErrorOf : Except PState (Program × PState) → Bool
  | .error s => s.errorOccurred
  | .ok (_, s) => s.errorOccurred

/-- Whether a run terminated with a `Program` (the C++ `parse()` returning). -/
def isOkRun : Except PState (Program × PState) → Bool
  | .error _ => false
  | .ok _ => true

/-- Claim input: `say "abc` (no closing quote). -/
def src1 : List Char := "say \"abc".toList

/-- Claim input: a lone `%` character. -/
def src2op : List Char := "%".toList

/-- Claim input: the expression statement `a % b;`. -/
def src2 : List Char := "a % b;".toList

/-- Claim input: the word `entered`. -/
def src3kw : List Char := "entered".toList

/-- Claim input: a room with one property, one nested item, and one
`when entered` event block containing a `say` statement. -/
def src3 : List Char :=
  "room r \x7b desc: 1; item k \x7b \x7d when entered \x7b say \"x\"; \x7d \x7d".toList

/-- Claim input: `1 + 2 * 3`. -/
def src7a : List Char := "1 + 2 * 3".toList

/-- Claim input: `a = b = 1`. -/
def src7b : List Char := "a = b = 1".toList

/-- Claim input: `1 = 2;`. -/
def src8 : List Char := "1 = 2;".toList

/-- Claim input: `var ;  var x = 1;`. -/
def src9 : List Char := "var ;  var x = 1;".toList

/-- Claim input: a lone `;`. -/
def src10 : List Char := ";".toList

/-- The 1-based column of the character at offset `i` of the source:
one plus the number of characters after the last newline strictly before
`i`. -/
def colOfPos (src : List Char) (i : Nat) : Nat :=
  (((src.take i).reverse.takeWhile (fun ch => ch ≠ '\n'))).length + 1

/-- Verification invariant for reachable lexer cursors: the cursor is in
bounds, `start` does not pass `position`, lines count from 1, and while
still on line 1 the column counter tracks `position + 1` and no newline
has been consumed. -/
def LexInv (src : List Char) (c : Cursor) : Prop :=
  c.position ≤ src.length ∧ c.start ≤ c.position ∧ 1 ≤ c.line ∧
  (c.line = 1 → c.column = (c.position : Int) + 1) ∧
  (c.line = 1 → ∀ i, i < c.position → src.getD i '\x00' ≠ '\n')

/-! ## Theorems -/

/-- Claim C6: `peekToken()` returns exactly the token that the immediately
following `nextToken()` call returns, and leaves the lexer's observable
state (position, token-start offset, line, column) exactly as it was. -/
theorem claim6_peekToken_is_pure_lookahead (src : List Char) (c : Cursor) :
    Lexer.peekToken src c = ((Lexer.nextToken src c).1, c) := rfl

/-- Claim C7: `1 + 2 * 3` parses to
`Binary(+, Literal(1), Binary(*, Literal(2), Literal(3)))` (multiplication
binds tighter than addition), and `a = b = 1` parses right-associatively to
`Binary(=, a, Binary(=, b, Literal(1)))`; neither parse records an error. -/
theorem claim7_precedence_and_right_assoc_assignment :
    Parser.parseExpression src7a 40 (Parser.initState src7a) =
      .ok (some (.BinaryExpr ⟨"script.story", 1, 2⟩
            (some (.LiteralExpr ⟨"script.story", 1, 2⟩ (.num 1)))
            ⟨.PLUS, "+", 1, 3⟩
            (some (.BinaryExpr ⟨"script.story", 1, 6⟩
              (some (.LiteralExpr ⟨"script.story", 1, 6⟩ (.num 2)))
              ⟨.MULTIPLY, "*", 1, 7⟩
              (some (.LiteralExpr ⟨"script.story", 1, 10⟩ (.num 3)))))),
          ⟨⟨.EOF_TOKEN, "", 1, 10⟩, ⟨.NUMBER, "3", 1, 9⟩, false, [], ⟨9, 9, 1, 10⟩⟩) ∧
    Parser.parseExpression src7b 40 (Parser.initState src7b) =
      .ok (some (.BinaryExpr ⟨"script.story", 1, 2⟩
            (some (.VariableExpr ⟨"script.story", 1, 2⟩ ⟨.IDENTIFIER, "a", 1, 1⟩))
            ⟨.ASSIGN, "=", 1, 3⟩
            (some (.BinaryExpr ⟨"script.story", 1, 6⟩
              (some (.VariableExpr ⟨"script.story", 1, 6⟩ ⟨.IDENTIFIER, "b", 1, 5⟩))
              ⟨.ASSIGN, "=", 1, 7⟩
              (some (.LiteralExpr ⟨"script.story", 1, 10⟩ (.num 1)))))),
          ⟨⟨.EOF_TOKEN, "", 1, 10⟩, ⟨.NUMBER, "1", 1, 9⟩, false, [], ⟨9, 9, 1, 10⟩⟩) :=
  ⟨rfl, rfl⟩

/-- Claim C8: parsing `1 = 2;` terminates, records exactly the single
error "Invalid assignment target.", and the resulting program consists of
one expression statement whose expression is the preserved left-hand
literal `1`. -/
theorem claim8_invalid_assignment_target_preserves_lhs :
    Parser.parse src8 100 =
      .ok (⟨⟨"script.story", 1, 2⟩, [],
            [Statement.ExpressionStmt ⟨"script.story", 1, 2⟩
              (some (.LiteralExpr ⟨"script.story", 1, 2⟩ (.num 1)))], []⟩,
          ⟨⟨.EOF_TOKEN, "", 1, 7⟩, ⟨.SEMICOLON, ";", 1, 6⟩, true,
            ["Invalid assignment target."], ⟨6, 6, 1, 7⟩⟩) := rfl

/-- Claim C9: parsing `var ;  var x = 1;` terminates recording exactly one
error ("Expected variable name.", from the first malformed declaration),
and the resulting program still contains the valid declaration of `x` with
initializer literal `1` as its second statement (the first declaration
yields a `Var` node named by the mismatched `;` token). -/
theorem claim9_error_does_not_cascade_into_next_declaration :
    Parser.parse src9 100 =
      .ok (⟨⟨"script.story", 1, 4⟩, [],
            [Statement.VarStmt ⟨"script.story", 1, 6⟩ ⟨.SEMICOLON, ";", 1, 5⟩ none,
             Statement.VarStmt ⟨"script.story", 1, 13⟩ ⟨.IDENTIFIER, "x", 1, 12⟩
               (some (.LiteralExpr ⟨"script.story", 1, 17⟩ (.num 1)))], []⟩,
          ⟨⟨.EOF_TOKEN, "", 1, 18⟩, ⟨.SEMICOLON, ";", 1, 17⟩, true,
            ["Expected variable name."], ⟨17, 17, 1, 18⟩⟩) := rfl

/-- Claim C10: on a token that cannot start an expression (the `;` of the
input `;`), `parsePrimary` records "Expected expression." and returns a
null expression leaving the current token and the lexer cursor untouched
(compare the state on both sides: only the error fields change); the whole
parse then terminates normally and the resulting program contains an
expression statement whose expression child is null. -/
theorem claim10_null_expression_statement_no_crash :
    Parser.parsePrimary src10 10 (Parser.initState src10) =
      .ok (none, ⟨⟨.SEMICOLON, ";", 1, 1⟩, ⟨.UNKNOWN, "", 0, 0⟩, true,
            ["Expected expression."], ⟨1, 0, 1, 2⟩⟩) ∧
    Parser.initState src10 =
      ⟨⟨.SEMICOLON, ";", 1, 1⟩, ⟨.UNKNOWN, "", 0, 0⟩, false, [], ⟨1, 0, 1, 2⟩⟩ ∧
    Parser.parse src10 100 =
      .ok (⟨⟨"script.story", 1, 2⟩, [],
            [Statement.ExpressionStmt ⟨"script.story", 1, 2⟩ none], []⟩,
          ⟨⟨.EOF_TOKEN, "", 1, 2⟩, ⟨.SEMICOLON, ";", 1, 1⟩, true,
            ["Expected expression."], ⟨1, 1, 1, 2⟩⟩) :=
  ⟨rfl, rfl, rfl⟩

end StoryScript
namespace StoryScript

/-- Reduction of an Except bind on an `ok` value (used to step the
fuelled parser loops syntactically). -/
theorem exceptBind_ok {α β : Type} (a : α) (f : α → Except PState β) :
    (Bind.bind (Except.ok a) f) = f a := rfl

/-- Reduction of an Except bind on an `error` value. -/
theorem exceptBind_error {α β : Type} (e : PState) (f : α → Except PState β) :
    (Bind.bind (Except.error e : Except PState α) f) = Except.error e := rfl

/-- When `current` is an UNKNOWN (lex-error) token, `parseStatement`
consumes nothing: with insufficient fuel it exhausts (modelling a
still-running C++ call), and with sufficient fuel it returns a null
expression statement leaving `current`, `previous` and the lexer cursor
exactly as they were, having recorded two more diagnostics. -/
theorem parseStatement_stuck_unknown (src : List Char) (lexm : String) (ln col : Int)
    (prev : Token) (errs : List String) (lexc : Cursor) :
    ∀ n : Nat,
      (∃ e, Parser.parseStatement src n ⟨⟨.UNKNOWN, lexm, ln, col⟩, prev, true, errs, lexc⟩ =
          .error e ∧ e.errorOccurred = true) ∨
      Parser.parseStatement src n ⟨⟨.UNKNOWN, lexm, ln, col⟩, prev, true, errs, lexc⟩ =
        .ok (Statement.ExpressionStmt ⟨scriptFilename, lexc.line, lexc.column⟩ none,
            ⟨⟨.UNKNOWN, lexm, ln, col⟩, prev, true,
              errs ++ ["Expected expression."] ++ ["Expected ';' after expression."], lexc⟩)
  | 0 => Or.inl ⟨_, rfl, rfl⟩
  | 1 => Or.inl ⟨_, rfl, rfl⟩
  | 2 => Or.inl ⟨_, rfl, rfl⟩
  | 3 => Or.inl ⟨_, rfl, rfl⟩
  | 4 => Or.inl ⟨_, rfl, rfl⟩
  | 5 => Or.inl ⟨_, rfl, rfl⟩
  | 6 => Or.inl ⟨_, rfl, rfl⟩
  | 7 => Or.inl ⟨_, rfl, rfl⟩
  | 8 => Or.inl ⟨_, rfl, rfl⟩
  | 9 => Or.inl ⟨_, rfl, rfl⟩
  | 10 => Or.inl ⟨_, rfl, rfl⟩
  | 11 => Or.inl ⟨_, rfl, rfl⟩
  | 12 => Or.inl ⟨_, rfl, rfl⟩
  | n + 13 => Or.inr rfl

/-- With an UNKNOWN token as `current`, the top-level parsing loop never
terminates: every fuel budget is exhausted (the C++ loop re-attempts the
same statement forever without consuming the token). -/
theorem parseProgramLoop_stuck_unknown (src : List Char) (loc : SourceLocation)
    (lexm : String) (ln col : Int) (prev : Token) (lexc : Cursor) :
    ∀ (n : Nat) (rooms : List Room) (funs : List FunctionStmt)
      (stmts : List Statement) (errs : List String),
      ∃ e, Parser.parseProgramLoop src n loc rooms funs stmts
            ⟨⟨.UNKNOWN, lexm, ln, col⟩, prev, true, errs, lexc⟩ = .error e ∧
          e.errorOccurred = true := by
  intro n
  induction n with
  | zero => exact fun rooms funs stmts errs => ⟨_, rfl, rfl⟩
  | succ n ih =>
    intro rooms funs stmts errs
    have hstep : Parser.parseProgramLoop src (n + 1) loc rooms funs stmts
          ⟨⟨.UNKNOWN, lexm, ln, col⟩, prev, true, errs, lexc⟩ =
        (do let (st, s) ← Parser.parseStatement src n
              ⟨⟨.UNKNOWN, lexm, ln, col⟩, prev, true, errs, lexc⟩
            Parser.parseProgramLoop src n loc rooms funs (stmts ++ [st]) s) := rfl
    rcases parseStatement_stuck_unknown src lexm ln col prev errs lexc n with ⟨e, he, heo⟩ | hok
    · exact ⟨e, by rw [hstep, he, exceptBind_error], heo⟩
    · rw [hstep, hok, exceptBind_ok]
      exact ih rooms funs
        (stmts ++ [Statement.ExpressionStmt ⟨scriptFilename, lexc.line, lexc.column⟩ none])
        (errs ++ ["Expected expression."] ++ ["Expected ';' after expression."])

/-- Claim C1 (evaluation of the code at the failing input): on `say "abc`
the lexer produces a SAY token and then the lex-error token
"Unterminated string."; the parser records syntax errors, but `parse()`
NEVER terminates — for every fuel budget the run is still unfinished —
because the UNKNOWN token is never consumed. -/
theorem claim1_unterminated_string_parse_never_returns :
    (Lexer.lexIter src1 initCursor 0).1 = ⟨.SAY, "say", 1, 1⟩ ∧
    (Lexer.lexIter src1 initCursor 1).1 = ⟨.UNKNOWN, "Unterminated string.", 1, 9⟩ ∧
    hadErrorOf (Parser.parse src1 40) = true ∧
    "Expected ';' after message." ∈ errsOf (Parser.parse src1 40) ∧
    (∀ fuel, ∃ s, Parser.parse src1 fuel = .error s) := by
  refine ⟨rfl, rfl, rfl, by decide, ?_⟩
  intro fuel
  rcases Nat.lt_or_ge fuel 20 with h | h
  · interval_cases fuel <;> exact ⟨_, rfl⟩
  · obtain ⟨n, rfl⟩ : ∃ n, fuel = n + 20 := ⟨fuel - 20, by omega⟩
    have hpre1 : Parser.parse src1 (n + 20) =
        Parser.parseProgramLoop src1 (n + 19) ⟨"script.story", 1, 4⟩ [] [] []
          ⟨⟨.SAY, "say", 1, 1⟩, ⟨.UNKNOWN, "", 0, 0⟩, false, [], ⟨3, 0, 1, 4⟩⟩ := rfl
    have hstep1 : Parser.parseProgramLoop src1 (n + 19) ⟨"script.story", 1, 4⟩ [] [] []
          ⟨⟨.SAY, "say", 1, 1⟩, ⟨.UNKNOWN, "", 0, 0⟩, false, [], ⟨3, 0, 1, 4⟩⟩ =
        (do let (st, s) ← Parser.parseStatement src1 (n + 18)
              ⟨⟨.SAY, "say", 1, 1⟩, ⟨.UNKNOWN, "", 0, 0⟩, false, [], ⟨3, 0, 1, 4⟩⟩
            Parser.parseProgramLoop src1 (n + 18) ⟨"script.story", 1, 4⟩ [] [] ([] ++ [st]) s) := rfl
    have hstmt : Parser.parseStatement src1 (n + 18)
          ⟨⟨.SAY, "say", 1, 1⟩, ⟨.UNKNOWN, "", 0, 0⟩, false, [], ⟨3, 0, 1, 4⟩⟩ =
        .ok (Statement.SayStmt ⟨"script.story", 1, 9⟩ none,
          ⟨⟨.UNKNOWN, "Unterminated string.", 1, 9⟩, ⟨.SAY, "say", 1, 1⟩, true,
            ["Expected expression.", "Expected ';' after message."], ⟨8, 4, 1, 9⟩⟩) := rfl
    obtain ⟨e, he, -⟩ := parseProgramLoop_stuck_unknown src1 ⟨"script.story", 1, 4⟩
      "Unterminated string." 1 9 ⟨.SAY, "say", 1, 1⟩ ⟨8, 4, 1, 9⟩ (n + 18) [] []
      [Statement.SayStmt ⟨"script.story", 1, 9⟩ none]
      ["Expected expression.", "Expected ';' after message."]
    refine ⟨e, ?_⟩
    rw [hpre1, hstep1, hstmt, exceptBind_ok]
    exact he

end StoryScript

namespace StoryScript

/-- Claim C2 (evaluation at the failing input): the lexer has no case for
`%` — it yields the UNKNOWN error token "Unexpected character.", not a
MODULO token — and consequently `a % b;` is never parsed as a Binary
node: the parser records an error and, worse, `parse()` never returns at
any fuel (the UNKNOWN token is never consumed). -/
theorem claim2_percent_never_lexed_as_modulo :
    Lexer.nextToken src2op initCursor = (⟨.UNKNOWN, "Unexpected character.", 1, 2⟩, ⟨1, 0, 1, 2⟩) ∧
    (Lexer.nextToken src2op initCursor).1.type ≠ .MODULO ∧
    (Lexer.lexIter src2 initCursor 1).1 = ⟨.UNKNOWN, "Unexpected character.", 1, 4⟩ ∧
    hadErrorOf (Parser.parse src2 40) = true ∧
    "Expected ';' after expression." ∈ errsOf (Parser.parse src2 40) ∧
    (∀ fuel, ∃ s, Parser.parse src2 fuel = .error s) := by
  refine ⟨rfl, by decide, rfl, rfl, by decide, ?_⟩
  intro fuel
  rcases Nat.lt_or_ge fuel 20 with h | h
  · interval_cases fuel <;> exact ⟨_, rfl⟩
  · obtain ⟨n, rfl⟩ : ∃ n, fuel = n + 20 := ⟨fuel - 20, by omega⟩
    have hpre1 : Parser.parse src2 (n + 20) =
        Parser.parseProgramLoop src2 (n + 19) ⟨"script.story", 1, 2⟩ [] [] []
          ⟨⟨.IDENTIFIER, "a", 1, 1⟩, ⟨.UNKNOWN, "", 0, 0⟩, false, [], ⟨1, 0, 1, 2⟩⟩ := rfl
    have hstep1 : Parser.parseProgramLoop src2 (n + 19) ⟨"script.story", 1, 2⟩ [] [] []
          ⟨⟨.IDENTIFIER, "a", 1, 1⟩, ⟨.UNKNOWN, "", 0, 0⟩, false, [], ⟨1, 0, 1, 2⟩⟩ =
        (do let (st, s) ← Parser.parseStatement src2 (n + 18)
              ⟨⟨.IDENTIFIER, "a", 1, 1⟩, ⟨.UNKNOWN, "", 0, 0⟩, false, [], ⟨1, 0, 1, 2⟩⟩
            Parser.parseProgramLoop src2 (n + 18) ⟨"script.story", 1, 2⟩ [] [] ([] ++ [st]) s) := rfl
    have hstmt : Parser.parseStatement src2 (n + 18)
          ⟨⟨.IDENTIFIER, "a", 1, 1⟩, ⟨.UNKNOWN, "", 0, 0⟩, false, [], ⟨1, 0, 1, 2⟩⟩ =
        .ok (Statement.ExpressionStmt ⟨"script.story", 1, 2⟩
              (some (.VariableExpr ⟨"script.story", 1, 2⟩ ⟨.IDENTIFIER, "a", 1, 1⟩)),
          ⟨⟨.UNKNOWN, "Unexpected character.", 1, 4⟩, ⟨.IDENTIFIER, "a", 1, 1⟩, true,
            ["Expected ';' after expression."], ⟨3, 2, 1, 4⟩⟩) := rfl
    obtain ⟨e, he, -⟩ := parseProgramLoop_stuck_unknown src2 ⟨"script.story", 1, 2⟩
      "Unexpected character." 1 4 ⟨.IDENTIFIER, "a", 1, 1⟩ ⟨3, 2, 1, 4⟩ (n + 18) [] []
      [Statement.ExpressionStmt ⟨"script.story", 1, 2⟩
        (some (.VariableExpr ⟨"script.story", 1, 2⟩ ⟨.IDENTIFIER, "a", 1, 1⟩))]
      ["Expected ';' after expression."]
    refine ⟨e, ?_⟩
    rw [hpre1, hstep1, hstmt, exceptBind_ok]
    exact he

/-- Like the UNKNOWN case: when `current` is the keyword token ENTERED,
`parseStatement` consumes nothing and returns a null expression statement
(ENTERED starts no statement and no expression). -/
theorem parseStatement_stuck_entered (src : List Char) (lexm : String) (ln col : Int)
    (prev : Token) (errs : List String) (lexc : Cursor) :
    ∀ n : Nat,
      (∃ e, Parser.parseStatement src n ⟨⟨.ENTERED, lexm, ln, col⟩, prev, true, errs, lexc⟩ =
          .error e ∧ e.errorOccurred = true) ∨
      Parser.parseStatement src n ⟨⟨.ENTERED, lexm, ln, col⟩, prev, true, errs, lexc⟩ =
        .ok (Statement.ExpressionStmt ⟨scriptFilename, lexc.line, lexc.column⟩ none,
            ⟨⟨.ENTERED, lexm, ln, col⟩, prev, true,
              errs ++ ["Expected expression."] ++ ["Expected ';' after expression."], lexc⟩)
  | 0 => Or.inl ⟨_, rfl, rfl⟩
  | 1 => Or.inl ⟨_, rfl, rfl⟩
  | 2 => Or.inl ⟨_, rfl, rfl⟩
  | 3 => Or.inl ⟨_, rfl, rfl⟩
  | 4 => Or.inl ⟨_, rfl, rfl⟩
  | 5 => Or.inl ⟨_, rfl, rfl⟩
  | 6 => Or.inl ⟨_, rfl, rfl⟩
  | 7 => Or.inl ⟨_, rfl, rfl⟩
  | 8 => Or.inl ⟨_, rfl, rfl⟩
  | 9 => Or.inl ⟨_, rfl, rfl⟩
  | 10 => Or.inl ⟨_, rfl, rfl⟩
  | 11 => Or.inl ⟨_, rfl, rfl⟩
  | 12 => Or.inl ⟨_, rfl, rfl⟩
  | n + 13 => Or.inr rfl

/-- With the ENTERED token as `current`, the statement loop of
`parseBlock` never terminates at any fuel. -/
theorem blockLoop_stuck_entered (src : List Char) (loc : SourceLocation)
    (lexm : String) (ln col : Int) (prev : Token) (lexc : Cursor) :
    ∀ (n : Nat) (stmts : List Statement) (errs : List String),
      ∃ e, Parser.blockLoop src n loc stmts
            ⟨⟨.ENTERED, lexm, ln, col⟩, prev, true, errs, lexc⟩ = .error e ∧
          e.errorOccurred = true := by
  intro n
  induction n with
  | zero => exact fun stmts errs => ⟨_, rfl, rfl⟩
  | succ n ih =>
    intro stmts errs
    have hstep : Parser.blockLoop src (n + 1) loc stmts
          ⟨⟨.ENTERED, lexm, ln, col⟩, prev, true, errs, lexc⟩ =
        (do let (st, s) ← Parser.parseStatement src n
              ⟨⟨.ENTERED, lexm, ln, col⟩, prev, true, errs, lexc⟩
            Parser.blockLoop src n loc (stmts ++ [st]) s) := rfl
    rcases parseStatement_stuck_entered src lexm ln col prev errs lexc n with ⟨e, he, heo⟩ | hok
    · exact ⟨e, by rw [hstep, he, exceptBind_error], heo⟩
    · rw [hstep, hok, exceptBind_ok]
      exact ih (stmts ++ [Statement.ExpressionStmt ⟨scriptFilename, lexc.line, lexc.column⟩ none])
        (errs ++ ["Expected expression."] ++ ["Expected ';' after expression."])

end StoryScript

namespace StoryScript

/-- Claim C3 (evaluation at the failing input): `entered` lexes as the
keyword token ENTERED, not as an IDENTIFIER, so `parseRoom`'s
`consume(IDENTIFIER, "Expected event type after 'when'.")` fails on every
`when entered` block: on the claimed end-to-end scenario the parser
records that error (`hadError()` would be true, not false) and `parse()`
never returns at any fuel (the ENTERED token is never consumed and the
block loop re-attempts it forever). -/
theorem claim3_when_entered_scenario_fails :
    Lexer.nextToken src3kw initCursor = (⟨.ENTERED, "entered", 1, 1⟩, ⟨7, 0, 1, 8⟩) ∧
    TokenType.ENTERED ≠ TokenType.IDENTIFIER ∧
    hadErrorOf (Parser.parse src3 60) = true ∧
    "Expected event type after 'when'." ∈ errsOf (Parser.parse src3 60) ∧
    (∀ fuel, ∃ s, Parser.parse src3 fuel = .error s) := by
  refine ⟨rfl, by decide, rfl, by decide, ?_⟩
  intro fuel
  rcases Nat.lt_or_ge fuel 26 with h | h
  · interval_cases fuel <;> exact ⟨_, rfl⟩
  · obtain ⟨n, rfl⟩ : ∃ n, fuel = n + 26 := ⟨fuel - 26, by omega⟩
    have h1 : Parser.parse src3 (n + 26) =
        Parser.parseProgramLoop src3 (n + 25) ⟨"script.story", 1, 5⟩ [] [] []
          ⟨⟨.ROOM, "room", 1, 1⟩, ⟨.UNKNOWN, "", 0, 0⟩, false, [], ⟨4, 0, 1, 5⟩⟩ := rfl
    have h2 : Parser.parseProgramLoop src3 (n + 25) ⟨"script.story", 1, 5⟩ [] [] []
          ⟨⟨.ROOM, "room", 1, 1⟩, ⟨.UNKNOWN, "", 0, 0⟩, false, [], ⟨4, 0, 1, 5⟩⟩ =
        (do let (r, s) ← Parser.parseRoom src3 (n + 24)
              ⟨⟨.IDENTIFIER, "r", 1, 6⟩, ⟨.ROOM, "room", 1, 1⟩, false, [], ⟨6, 5, 1, 7⟩⟩
            Parser.parseProgramLoop src3 (n + 24) ⟨"script.story", 1, 5⟩ ([] ++ [r]) [] [] s) := rfl
    have h3 : Parser.parseRoom src3 (n + 24)
          ⟨⟨.IDENTIFIER, "r", 1, 6⟩, ⟨.ROOM, "room", 1, 1⟩, false, [], ⟨6, 5, 1, 7⟩⟩ =
        Parser.roomLoop src3 (n + 23) ⟨"script.story", 1, 7⟩ ⟨.IDENTIFIER, "r", 1, 6⟩ [] [] []
          ⟨⟨.IDENTIFIER, "desc", 1, 10⟩, ⟨.LBRACE, "\x7b", 1, 8⟩, false, [], ⟨13, 9, 1, 14⟩⟩ := rfl
    have h4 : Parser.roomLoop src3 (n + 23) ⟨"script.story", 1, 7⟩ ⟨.IDENTIFIER, "r", 1, 6⟩ [] [] []
          ⟨⟨.IDENTIFIER, "desc", 1, 10⟩, ⟨.LBRACE, "\x7b", 1, 8⟩, false, [], ⟨13, 9, 1, 14⟩⟩ =
        (do let (value, s) ← Parser.parseExpression src3 (n + 22)
              ⟨⟨.NUMBER, "1", 1, 16⟩, ⟨.COLON, ":", 1, 14⟩, false, [], ⟨16, 15, 1, 17⟩⟩
            let (_, s) := Parser.consume src3 .SEMICOLON "Expected ';' after property value." s
            Parser.roomLoop src3 (n + 22) ⟨"script.story", 1, 7⟩ ⟨.IDENTIFIER, "r", 1, 6⟩
              ([] ++ [("desc", value)]) [] [] s) := rfl
    have h5 : Parser.parseExpression src3 (n + 22)
          ⟨⟨.NUMBER, "1", 1, 16⟩, ⟨.COLON, ":", 1, 14⟩, false, [], ⟨16, 15, 1, 17⟩⟩ =
        .ok (some (.LiteralExpr ⟨"script.story", 1, 17⟩ (.num 1)),
          ⟨⟨.SEMICOLON, ";", 1, 17⟩, ⟨.NUMBER, "1", 1, 16⟩, false, [], ⟨17, 16, 1, 18⟩⟩) := rfl
    have h6 : Parser.roomLoop src3 (n + 22) ⟨"script.story", 1, 7⟩ ⟨.IDENTIFIER, "r", 1, 6⟩
          ([] ++ [("desc", some (.LiteralExpr ⟨"script.story", 1, 17⟩ (.num 1)))]) [] []
          ⟨⟨.ITEM, "item", 1, 19⟩, ⟨.SEMICOLON, ";", 1, 17⟩, false, [], ⟨22, 18, 1, 23⟩⟩ =
        (do let (it, s) ← Parser.parseItem src3 (n + 21)
              ⟨⟨.IDENTIFIER, "k", 1, 24⟩, ⟨.ITEM, "item", 1, 19⟩, false, [], ⟨24, 23, 1, 25⟩⟩
            Parser.roomLoop src3 (n + 21) ⟨"script.story", 1, 7⟩ ⟨.IDENTIFIER, "r", 1, 6⟩
              ([] ++ [("desc", some (.LiteralExpr ⟨"script.story", 1, 17⟩ (.num 1)))])
              ([] ++ [it]) [] s) := rfl
    have h7 : Parser.parseItem src3 (n + 21)
          ⟨⟨.IDENTIFIER, "k", 1, 24⟩, ⟨.ITEM, "item", 1, 19⟩, false, [], ⟨24, 23, 1, 25⟩⟩ =
        .ok (⟨⟨"script.story", 1, 25⟩, ⟨.IDENTIFIER, "k", 1, 24⟩, []⟩,
          ⟨⟨.WHEN, "when", 1, 30⟩, ⟨.RBRACE, "\x7d", 1, 28⟩, false, [], ⟨33, 29, 1, 34⟩⟩) := rfl
    have h8 : Parser.roomLoop src3 (n + 21) ⟨"script.story", 1, 7⟩ ⟨.IDENTIFIER, "r", 1, 6⟩
          ([] ++ [("desc", some (.LiteralExpr ⟨"script.story", 1, 17⟩ (.num 1)))])
          ([] ++ [⟨⟨"script.story", 1, 25⟩, ⟨.IDENTIFIER, "k", 1, 24⟩, []⟩]) []
          ⟨⟨.WHEN, "when", 1, 30⟩, ⟨.RBRACE, "\x7d", 1, 28⟩, false, [], ⟨33, 29, 1, 34⟩⟩ =
        (do let (body, s) ← Parser.parseBlock src3 (n + 20)
              ⟨⟨.ENTERED, "entered", 1, 35⟩, ⟨.WHEN, "when", 1, 30⟩, true,
                ["Expected event type after 'when'."], ⟨41, 34, 1, 42⟩⟩
            Parser.roomLoop src3 (n + 20) ⟨"script.story", 1, 7⟩ ⟨.IDENTIFIER, "r", 1, 6⟩
              ([] ++ [("desc", some (.LiteralExpr ⟨"script.story", 1, 17⟩ (.num 1)))])
              ([] ++ [⟨⟨"script.story", 1, 25⟩, ⟨.IDENTIFIER, "k", 1, 24⟩, []⟩])
              ([] ++ [("entered", body)]) s) := rfl
    have h9 : Parser.parseBlock src3 (n + 20)
          ⟨⟨.ENTERED, "entered", 1, 35⟩, ⟨.WHEN, "when", 1, 30⟩, true,
            ["Expected event type after 'when'."], ⟨41, 34, 1, 42⟩⟩ =
        Parser.blockLoop src3 (n + 19) ⟨"script.story", 1, 42⟩ []
          ⟨⟨.ENTERED, "entered", 1, 35⟩, ⟨.WHEN, "when", 1, 30⟩, true,
            ["Expected event type after 'when'."], ⟨41, 34, 1, 42⟩⟩ := rfl
    obtain ⟨e, he, -⟩ := blockLoop_stuck_entered src3 ⟨"script.story", 1, 42⟩
      "entered" 1 35 ⟨.WHEN, "when", 1, 30⟩ ⟨41, 34, 1, 42⟩ (n + 19) []
      ["Expected event type after 'when'."]
    refine ⟨e, ?_⟩
    rw [h1, h2, h3, h4, h5, exceptBind_ok]
    show (do let (r, s) ← Parser.roomLoop src3 (n + 22) ⟨"script.story", 1, 7⟩
              ⟨.IDENTIFIER, "r", 1, 6⟩
              ([] ++ [("desc", some (.LiteralExpr ⟨"script.story", 1, 17⟩ (.num 1)))]) [] []
              ⟨⟨.ITEM, "item", 1, 19⟩, ⟨.SEMICOLON, ";", 1, 17⟩, false, [], ⟨22, 18, 1, 23⟩⟩
             Parser.parseProgramLoop src3 (n + 24) ⟨"script.story", 1, 5⟩ ([] ++ [r]) [] [] s) =
        Except.error e
    rw [h6, h7, exceptBind_ok]
    show (do let (r, s) ← Parser.roomLoop src3 (n + 21) ⟨"script.story", 1, 7⟩
              ⟨.IDENTIFIER, "r", 1, 6⟩
              ([] ++ [("desc", some (.LiteralExpr ⟨"script.story", 1, 17⟩ (.num 1)))])
              ([] ++ [⟨⟨"script.story", 1, 25⟩, ⟨.IDENTIFIER, "k", 1, 24⟩, []⟩]) []
              ⟨⟨.WHEN, "when", 1, 30⟩, ⟨.RBRACE, "\x7d", 1, 28⟩, false, [], ⟨33, 29, 1, 34⟩⟩
             Parser.parseProgramLoop src3 (n + 24) ⟨"script.story", 1, 5⟩ ([] ++ [r]) [] [] s) =
        Except.error e
    rw [h8, h9, he, exceptBind_error, exceptBind_error]

end StoryScript

namespace StoryScript
namespace Lexer

/-- `skipWhitespaceGo` never moves the cursor backwards. -/
theorem skipWhitespaceGo_position_mono (src : List Char) :
    ∀ (fuel : Nat) (c : Cursor), c.position ≤ (skipWhitespaceGo src fuel c).position := by
  intro fuel
  induction fuel with
  | zero => intro c; exact Nat.le_refl _
  | succ fuel ih =>
    intro c
    rw [skipWhitespaceGo]
    split
    · have h := ih (advOne c)
      have hx : (advOne c).position = c.position + 1 := rfl
      omega
    · split
      · have h := ih (advOne { c with line := c.line + 1, column := 1 })
        have hx : (advOne { c with line := c.line + 1, column := 1 }).position = c.position + 1 := rfl
        omega
      · exact Nat.le_refl _

/-- `commentGo` never moves the cursor backwards. -/
theorem commentGo_position_mono (src : List Char) :
    ∀ (fuel : Nat) (c : Cursor), c.position ≤ (commentGo src fuel c).position := by
  intro fuel
  induction fuel with
  | zero => intro c; exact Nat.le_refl _
  | succ fuel ih =>
    intro c
    rw [commentGo]
    split
    · have h := ih (advOne c)
      have hx : (advOne c).position = c.position + 1 := rfl
      omega
    · exact Nat.le_refl _

/-- The keyword table never classifies an identifier as end-of-input. -/
theorem keywordType_ne_eof (text : String) :
    (initKeywords.lookup text).getD TokenType.IDENTIFIER ≠ .EOF_TOKEN := by
  simp only [initKeywords, List.lookup]
  repeat' split
  all_goals simp

/-- `identifier` never produces an end-of-input token. -/
theorem identifier_type_ne_eof (src : List Char) (c : Cursor) :
    (identifier src c).1.type ≠ .EOF_TOKEN := by
  have h : (identifier src c).1.type =
      (initKeywords.lookup (substr src
        (identifierGo src (src.length + 1 - c.position) c).start
        ((identifierGo src (src.length + 1 - c.position) c).position -
          (identifierGo src (src.length + 1 - c.position) c).start))).getD .IDENTIFIER := rfl
  rw [h]
  exact keywordType_ne_eof _

/-- `number` always produces a NUMBER token. -/
theorem number_type (src : List Char) (c : Cursor) :
    (number src c).1.type = .NUMBER := rfl

/-- `string` produces a STRING or UNKNOWN token, never end-of-input. -/
theorem string_type_ne_eof (src : List Char) (c : Cursor) :
    (string src c).1.type ≠ .EOF_TOKEN := by
  unfold string
  dsimp only
  split <;> simp [makeToken, errorToken]

/-- The `switch` of `nextToken` never produces an end-of-input token. -/
theorem scanToken_inl_type_ne_eof (src : List Char) (ch : Char) (c : Cursor)
    (t : Token) (c2 : Cursor) (h : scanToken src ch c = .inl (t, c2)) :
    t.type ≠ .EOF_TOKEN := by
  unfold scanToken at h
  repeat' split at h
  all_goals try cases h
  all_goals try
    (injection h with h1
     replace h1 := congrArg Prod.fst h1
     simp only at h1
     subst h1)
  all_goals
    first
    | exact string_type_ne_eof src c
    | (simp only [makeToken, errorToken]
       first
       | exact keywordType_ne_eof _
       | (try split) <;> simp)

/-- The comment branch of the `switch` advances the cursor. -/
theorem scanToken_inr_position (src : List Char) (ch : Char) (c : Cursor)
    (c2 : Cursor) (h : scanToken src ch c = .inr c2) :
    c.position + 1 ≤ c2.position := by
  unfold scanToken at h
  repeat' split at h
  all_goals cases h
  next hm =>
    have hmono := commentGo_position_mono src
      (src.length + 1 - (matchCh src '/' c).2.position) (matchCh src '/' c).2
    have hp : (matchCh src '/' c).1 = true → (matchCh src '/' c).2.position = c.position + 1 := by
      unfold matchCh
      split
      · intro hx; exact absurd hx (by simp)
      · intro _; rfl
    have := hp hm
    omega

end Lexer
end StoryScript

namespace StoryScript
namespace Lexer

/-- `skipWhitespace` never moves the cursor backwards. -/
theorem skipWhitespace_position_mono (src : List Char) (c : Cursor) :
    c.position ≤ (skipWhitespace src c).position :=
  skipWhitespaceGo_position_mono src (src.length + 1 - c.position) c

/-- At end of input `skipWhitespaceGo` is the identity (peek yields the
NUL sentinel, which is not whitespace). -/
theorem skipWhitespaceGo_at_end (src : List Char) (c : Cursor)
    (h : src.length ≤ c.position) : ∀ fuel, skipWhitespaceGo src fuel c = c := by
  intro fuel
  cases fuel with
  | zero => rfl
  | succ fuel =>
    rw [skipWhitespaceGo]
    have hp : peek src c = '\x00' := by
      unfold peek isAtEnd
      rw [if_pos]
      simp
      omega
    rw [hp]
    rw [if_neg (by decide), if_neg (by decide)]

/-- At end of input `skipWhitespace` is the identity. -/
theorem skipWhitespace_at_end (src : List Char) (c : Cursor)
    (h : src.length ≤ c.position) : skipWhitespace src c = c :=
  skipWhitespaceGo_at_end src c h _

/-- `nextTokenGo` produces an end-of-input token only at end of input,
with `start` caught up to `position` and the token recording the final
line/column and an empty lexeme. -/
theorem nextTokenGo_eof (src : List Char) :
    ∀ (fuel : Nat) (c : Cursor) (t : Token) (c' : Cursor),
      src.length + 1 ≤ fuel + c.position →
      nextTokenGo src fuel c = (t, c') →
      t.type = .EOF_TOKEN →
      src.length ≤ c'.position ∧ c'.start = c'.position ∧
        t = ⟨.EOF_TOKEN, "", c'.line, c'.column⟩ := by
  intro fuel
  induction fuel with
  | zero =>
    intro c t c' hsuf heq ht
    rw [nextTokenGo] at heq
    cases heq
    refine ⟨?_, rfl, rfl⟩
    show src.length ≤ c.position
    omega
  | succ fuel ih =>
    intro c t c' hsuf heq ht
    rw [nextTokenGo] at heq
    simp only [] at heq
    split at heq
    next hend =>
      cases heq
      refine ⟨?_, rfl, ?_⟩
      · simp only [isAtEnd, ge_iff_le, decide_eq_true_eq] at hend
        exact hend
      · simp [makeToken, substr, Nat.sub_self]
    next hend =>
      rcases hscan : scanToken src (src.getD ({ skipWhitespace src c with
          start := (skipWhitespace src c).position } : Cursor).position '\x00')
          (advOne { skipWhitespace src c with start := (skipWhitespace src c).position }) with r | c4
      · rw [hscan] at heq
        obtain ⟨rt, rc⟩ := r
        simp only [] at heq
        cases heq
        exact absurd ht (scanToken_inl_type_ne_eof src _ _ _ _ hscan)
      · rw [hscan] at heq
        simp only [] at heq
        have hmono1 := skipWhitespace_position_mono src c
        have hadv : (advOne { skipWhitespace src c with
            start := (skipWhitespace src c).position }).position =
            (skipWhitespace src c).position + 1 := rfl
        have hmono2 := scanToken_inr_position src _ _ c4 hscan
        exact ih c4 t c' (by omega) heq ht

/-- Calling `nextToken` at end of input with `start` caught up returns
the canonical end-of-input token and leaves the cursor unchanged. -/
theorem nextToken_at_end (src : List Char) (c : Cursor)
    (hpos : src.length ≤ c.position) (hstart : c.start = c.position) :
    nextToken src c = (⟨.EOF_TOKEN, "", c.line, c.column⟩, c) := by
  unfold nextToken
  have hc : ({ c with start := c.position } : Cursor) = c := by
    cases c
    simp_all
  rcases Nat.lt_or_ge c.position (src.length + 1) with hl | hl
  · rw [show src.length + 1 - c.position = 1 by omega]
    rw [nextTokenGo]
    simp only []
    rw [skipWhitespace_at_end src c hpos, hc]
    rw [if_pos (by simp [isAtEnd]; omega)]
    simp [makeToken, substr, show c.position - c.start = 0 by omega]
  · rw [show src.length + 1 - c.position = 0 by omega]
    rw [nextTokenGo, hc]

end Lexer

/-- Claim C5: once `nextToken()` has returned an end-of-input token,
every subsequent call returns the very same end-of-input token (in
particular with the same line and column) and leaves the lexer state
fixed: the whole iterated-call sequence is constant from that point on. -/
theorem claim5_eof_idempotent (src : List Char) (c : Cursor)
    (h : (Lexer.lexIter src c 0).1.type = .EOF_TOKEN) :
    ∀ k, Lexer.lexIter src c k = Lexer.lexIter src c 0 := by
  obtain ⟨hpos, hstart, htok⟩ := Lexer.nextTokenGo_eof src (src.length + 1 - c.position) c
    (Lexer.nextToken src c).1 (Lexer.nextToken src c).2 (by omega) rfl h
  intro k
  induction k with
  | zero => rfl
  | succ k ihk =>
    show Lexer.nextToken src (Lexer.lexIter src c k).2 = _
    rw [ihk]
    show Lexer.nextToken src (Lexer.nextToken src c).2 = Lexer.nextToken src c
    rw [Lexer.nextToken_at_end src _ hpos hstart]
    have hpair : Lexer.nextToken src c =
        ((Lexer.nextToken src c).1, (Lexer.nextToken src c).2) := rfl
    rw [hpair, htok]

/-- Witness for C5 at a concrete lexer: on source `a`, after the
identifier token the next call returns end-of-input, and iterating
further returns the same token and state. -/
theorem claim5_eof_idempotent_witness :
    (Lexer.lexIter "a".toList ⟨1, 0, 1, 2⟩ 0).1.type = .EOF_TOKEN ∧
    Lexer.lexIter "a".toList ⟨1, 0, 1, 2⟩ 3 = Lexer.lexIter "a".toList ⟨1, 0, 1, 2⟩ 0 :=
  ⟨rfl, claim5_eof_idempotent "a".toList ⟨1, 0, 1, 2⟩ rfl 3⟩

end StoryScript

namespace StoryScript
namespace Lexer

/-- A successful peek of a non-NUL character pins the current character. -/
theorem peek_eq_imp (src : List Char) (c : Cursor) (ch : Char)
    (h : peek src c = ch) (hch : ch ≠ '\x00') :
    c.position < src.length ∧ src.getD c.position '\x00' = ch := by
  unfold peek at h
  split at h
  next hend => exact absurd h.symm hch
  next hend =>
    refine ⟨?_, h⟩
    simp only [isAtEnd, ge_iff_le, decide_eq_true_eq] at hend
    omega

/-- When not at end, `peek` reads the current character. -/
theorem peek_of_not_at_end (src : List Char) (c : Cursor)
    (h : c.position < src.length) : peek src c = src.getD c.position '\x00' := by
  unfold peek isAtEnd
  rw [if_neg]
  simp
  omega

/-- `advOne` preserves the cursor invariant when it consumes an in-range
character that is not a newline (on line 1). -/
theorem LexInv.advOne_pres (src : List Char) (c : Cursor) (h : LexInv src c)
    (hlt : c.position < src.length)
    (hch : c.line = 1 → src.getD c.position '\x00' ≠ '\n') :
    LexInv src (advOne c) := by
  obtain ⟨h1, h2, h3, h4, h5⟩ := h
  refine ⟨?_, ?_, ?_, ?_, ?_⟩ <;> simp only [advOne]
  · omega
  · omega
  · exact h3
  · intro hl; have := h4 hl; push_cast; omega
  · intro hl i hi
    rcases Nat.lt_or_ge i c.position with hi2 | hi2
    · exact h5 hl i hi2
    · have : i = c.position := by omega
      subst this
      exact hch hl

/-- The newline step (`line++; column = 1; advance()`) preserves the
cursor invariant (afterwards the cursor is no longer on line 1). -/
theorem LexInv.newline_pres (src : List Char) (c : Cursor) (h : LexInv src c)
    (hlt : c.position < src.length) :
    LexInv src (advOne { c with line := c.line + 1, column := 1 }) := by
  obtain ⟨h1, h2, h3, h4, h5⟩ := h
  refine ⟨?_, ?_, ?_, ?_, ?_⟩ <;> simp only [advOne]
  · omega
  · omega
  · omega
  · intro hl; omega
  · intro hl; omega

/-- `skipWhitespaceGo` preserves the cursor invariant. -/
theorem skipWhitespaceGo_inv (src : List Char) :
    ∀ (fuel : Nat) (c : Cursor), LexInv src c → LexInv src (skipWhitespaceGo src fuel c) := by
  intro fuel
  induction fuel with
  | zero => exact fun c h => h
  | succ fuel ih =>
    intro c h
    rw [skipWhitespaceGo]
    split
    next hws =>
      refine ih _ ?_
      rcases hws with hw | hw | hw <;>
        (obtain ⟨hlt, hgd⟩ := peek_eq_imp src c _ hw (by decide)
         exact LexInv.advOne_pres src c h hlt (fun _ => by rw [hgd]; decide))
    next hws =>
      split
      next hnl =>
        obtain ⟨hlt, hgd⟩ := peek_eq_imp src c _ hnl (by decide)
        exact ih _ (LexInv.newline_pres src c h hlt)
      next hnl => exact h

/-- `identifierGo` preserves the cursor invariant. -/
theorem identifierGo_inv (src : List Char) :
    ∀ (fuel : Nat) (c : Cursor), LexInv src c → LexInv src (identifierGo src fuel c) := by
  intro fuel
  induction fuel with
  | zero => exact fun c h => h
  | succ fuel ih =>
    intro c h
    rw [identifierGo]
    split
    next hcond =>
      refine ih _ ?_
      have hne : peek src c ≠ '\x00' ∧ peek src c ≠ '\n' := by
        rcases hcond with hc | hc
        · constructor <;> (intro hx; rw [hx] at hc; exact absurd hc (by decide))
        · rw [hc]; exact ⟨by decide, by decide⟩
      obtain ⟨hlt, hgd⟩ := peek_eq_imp src c _ rfl hne.1
      exact LexInv.advOne_pres src c h hlt (fun _ => by rw [hgd]; exact hne.2)
    next => exact h

/-- `digitsGo` preserves the cursor invariant. -/
theorem digitsGo_inv (src : List Char) :
    ∀ (fuel : Nat) (c : Cursor), LexInv src c → LexInv src (digitsGo src fuel c) := by
  intro fuel
  induction fuel with
  | zero => exact fun c h => h
  | succ fuel ih =>
    intro c h
    rw [digitsGo]
    split
    next hcond =>
      refine ih _ ?_
      have hne : peek src c ≠ '\x00' ∧ peek src c ≠ '\n' := by
        constructor <;> (intro hx; rw [hx] at hcond; exact absurd hcond (by decide))
      obtain ⟨hlt, hgd⟩ := peek_eq_imp src c _ rfl hne.1
      exact LexInv.advOne_pres src c h hlt (fun _ => by rw [hgd]; exact hne.2)
    next => exact h

/-- `stringGo` preserves the cursor invariant. -/
theorem stringGo_inv (src : List Char) :
    ∀ (fuel : Nat) (c : Cursor), LexInv src c → LexInv src (stringGo src fuel c) := by
  intro fuel
  induction fuel with
  | zero => exact fun c h => h
  | succ fuel ih =>
    intro c h
    rw [stringGo]
    split
    next hcond =>
      obtain ⟨hq, hend⟩ := hcond
      have hlt : c.position < src.length := by
        simp only [isAtEnd, ge_iff_le, decide_eq_true_eq, Bool.not_eq_true,
          decide_eq_false_iff_not] at hend
        omega
      split
      next hnl => exact ih _ (LexInv.newline_pres src c h hlt)
      next hnl =>
        refine ih _ (LexInv.advOne_pres src c h hlt (fun _ => ?_))
        rw [← peek_of_not_at_end src c hlt]
        exact hnl
    next => exact h

/-- `commentGo` preserves the cursor invariant. -/
theorem commentGo_inv (src : List Char) :
    ∀ (fuel : Nat) (c : Cursor), LexInv src c → LexInv src (commentGo src fuel c) := by
  intro fuel
  induction fuel with
  | zero => exact fun c h => h
  | succ fuel ih =>
    intro c h
    rw [commentGo]
    split
    next hcond =>
      obtain ⟨hq, hend⟩ := hcond
      have hlt : c.position < src.length := by
        simp only [isAtEnd, ge_iff_le, decide_eq_true_eq, Bool.not_eq_true,
          decide_eq_false_iff_not] at hend
        omega
      refine ih _ (LexInv.advOne_pres src c h hlt (fun _ => ?_))
      rw [← peek_of_not_at_end src c hlt]
      exact hq
    next => exact h

/-- `matchCh` preserves the cursor invariant for non-newline expected
characters. -/
theorem matchCh_inv (src : List Char) (e : Char) (c : Cursor) (h : LexInv src c)
    (he : e ≠ '\n') : LexInv src (matchCh src e c).2 := by
  unfold matchCh
  split
  next => exact h
  next hcond =>
    push_neg at hcond
    obtain ⟨hend, hgd⟩ := hcond
    simp only [Bool.not_eq_true] at hend
    have hlt : c.position < src.length := by
      simp only [isAtEnd, ge_iff_le, decide_eq_false_iff_not] at hend
      omega
    exact LexInv.advOne_pres src c h hlt (fun _ => by rw [hgd]; exact he)

end Lexer
end StoryScript

namespace StoryScript
namespace Lexer

/-- With sufficient fuel, `skipWhitespaceGo` stops only on a
non-whitespace, non-newline peek. -/
theorem skipWhitespaceGo_post (src : List Char) :
    ∀ (fuel : Nat) (c : Cursor), src.length + 1 ≤ fuel + c.position →
      peek src (skipWhitespaceGo src fuel c) ≠ ' ' ∧
      peek src (skipWhitespaceGo src fuel c) ≠ '\r' ∧
      peek src (skipWhitespaceGo src fuel c) ≠ '\t' ∧
      peek src (skipWhitespaceGo src fuel c) ≠ '\n' := by
  intro fuel
  induction fuel with
  | zero =>
    intro c hsuf
    have hp : peek src c = '\x00' := by
      unfold peek isAtEnd
      rw [if_pos]
      simp
      omega
    rw [skipWhitespaceGo, hp]
    exact ⟨by decide, by decide, by decide, by decide⟩
  | succ fuel ih =>
    intro c hsuf
    rw [skipWhitespaceGo]
    split
    next hws =>
      refine ih _ ?_
      have : (advOne c).position = c.position + 1 := rfl
      omega
    next hws =>
      split
      next hnl =>
        refine ih _ ?_
        have : (advOne { c with line := c.line + 1, column := 1 }).position = c.position + 1 := rfl
        omega
      next hnl =>
        push_neg at hws
        exact ⟨hws.1, hws.2.1, hws.2.2, hnl⟩

/-- With sufficient fuel, `stringGo` stops only at the closing quote or
at end of input. -/
theorem stringGo_post (src : List Char) :
    ∀ (fuel : Nat) (c : Cursor), src.length + 1 ≤ fuel + c.position →
      isAtEnd src (stringGo src fuel c) = true ∨
      peek src (stringGo src fuel c) = '"' := by
  intro fuel
  induction fuel with
  | zero =>
    intro c hsuf
    left
    rw [stringGo]
    simp only [isAtEnd, ge_iff_le, decide_eq_true_eq]
    omega
  | succ fuel ih =>
    intro c hsuf
    rw [stringGo]
    split
    next hcond =>
      split
      · refine ih _ ?_
        have : (advOne { c with line := c.line + 1, column := 1 }).position = c.position + 1 := rfl
        omega
      · refine ih _ ?_
        have : (advOne c).position = c.position + 1 := rfl
        omega
    next hcond =>
      rcases Decidable.em (peek src c = '"') with hq | hq
      · exact Or.inr hq
      · left
        rcases Decidable.em (isAtEnd src c = true) with he | he
        · exact he
        · exact absurd ⟨hq, by simpa using he⟩ hcond

/-- Token-shape facts for `string`: the final cursor satisfies the
invariant, and a non-error result is the `makeToken` of the final cursor. -/
theorem string_post (src : List Char) (c : Cursor) (hInv : LexInv src c)
    (hsuf : src.length + 1 ≤ (src.length + 1 - c.position) + c.position) :
    LexInv src (string src c).2 ∧ ((string src c).1.type ≠ .UNKNOWN →
      (string src c).1.lexeme =
        substr src (string src c).2.start ((string src c).2.position - (string src c).2.start) ∧
      (string src c).1.line = (string src c).2.line ∧
      (string src c).1.column = (string src c).2.column - ((string src c).1.lexeme.length : Int)) := by
  have hg := stringGo_inv src (src.length + 1 - c.position) c hInv
  have hq := stringGo_post src (src.length + 1 - c.position) c hsuf
  have hstep : string src c =
      (if isAtEnd src (stringGo src (src.length + 1 - c.position) c) then
        (errorToken "Unterminated string." (stringGo src (src.length + 1 - c.position) c),
          stringGo src (src.length + 1 - c.position) c)
      else
        (makeToken src .STRING (advOne (stringGo src (src.length + 1 - c.position) c)),
          advOne (stringGo src (src.length + 1 - c.position) c))) := rfl
  rw [hstep]
  split
  next hend => exact ⟨hg, fun hne => absurd rfl hne⟩
  next hend =>
    have hlt : (stringGo src (src.length + 1 - c.position) c).position < src.length := by
      simp only [Bool.not_eq_true, isAtEnd, ge_iff_le, decide_eq_false_iff_not] at hend
      omega
    rcases hq with hq | hq
    · exact absurd hq (by simpa using hend)
    · obtain ⟨hlt2, hgd⟩ := peek_eq_imp src _ _ hq (by decide)
      refine ⟨LexInv.advOne_pres src _ hg hlt2 (fun _ => by rw [hgd]; decide), ?_⟩
      exact fun _ => ⟨rfl, rfl, rfl⟩

/-- Invariant preservation for `number`'s final cursor. -/
theorem number_inv (src : List Char) (c : Cursor) (hInv : LexInv src c) :
    LexInv src (number src c).2 := by
  have hd := digitsGo_inv src (src.length + 1 - c.position) c hInv
  have hstep : (number src c).2 =
      (if peek src (digitsGo src (src.length + 1 - c.position) c) = '.' ∧
          (peekNext src (digitsGo src (src.length + 1 - c.position) c)).isDigit then
        digitsGo src
          (src.length + 1 - (advOne (digitsGo src (src.length + 1 - c.position) c)).position)
          (advOne (digitsGo src (src.length + 1 - c.position) c))
      else digitsGo src (src.length + 1 - c.position) c) := rfl
  rw [hstep]
  split
  next hcond =>
    obtain ⟨hlt, hgd⟩ := peek_eq_imp src _ _ hcond.1 (by decide)
    exact digitsGo_inv src _ _ (LexInv.advOne_pres src _ hd hlt (fun _ => by rw [hgd]; decide))
  next => exact hd

/-- Cursor invariant and token-shape facts for the `switch` of
`nextToken`: non-error tokens are exactly the `makeToken` of the final
cursor (lexeme = the source span `[start, position)`, token line/column
recorded from the final cursor). -/
theorem scanToken_inl_post (src : List Char) (ch : Char) (c : Cursor)
    (t : Token) (c2 : Cursor) (hInv : LexInv src c)
    (hsuf : src.length + 1 ≤ (src.length + 1 - c.position) + c.position)
    (h : scanToken src ch c = .inl (t, c2)) :
    LexInv src c2 ∧ (t.type ≠ .UNKNOWN →
      t.lexeme = substr src c2.start (c2.position - c2.start) ∧
      t.line = c2.line ∧ t.column = c2.column - (t.lexeme.length : Int)) := by
  unfold scanToken at h
  repeat' split at h
  all_goals try cases h
  all_goals try
    (injection h with h1
     have h2 := congrArg Prod.snd h1
     replace h1 := congrArg Prod.fst h1
     simp only at h1 h2
     subst h1
     subst h2)
  all_goals
    first
    | exact ⟨hInv, fun _ => ⟨rfl, rfl, rfl⟩⟩
    | exact ⟨matchCh_inv src _ c hInv (by decide), fun _ => ⟨rfl, rfl, rfl⟩⟩
    | exact ⟨hInv, fun hne => absurd rfl hne⟩
    | exact ⟨identifierGo_inv src _ c hInv, fun _ => ⟨rfl, rfl, rfl⟩⟩
    | exact ⟨number_inv src c hInv, fun _ => ⟨rfl, rfl, rfl⟩⟩
    | exact string_post src c hInv hsuf

/-- The comment branch of the `switch` preserves the cursor invariant. -/
theorem scanToken_inr_inv (src : List Char) (ch : Char) (c : Cursor)
    (c4 : Cursor) (hInv : LexInv src c) (h : scanToken src ch c = .inr c4) :
    LexInv src c4 := by
  unfold scanToken at h
  repeat' split at h
  all_goals try cases h
  next =>
    exact commentGo_inv src _ _ (matchCh_inv src '/' c hInv (by decide))

end Lexer
end StoryScript

namespace StoryScript
namespace Lexer

/-- Catching `start` up to `position` preserves the cursor invariant. -/
theorem LexInv.start_catchup (src : List Char) (c : Cursor) (h : LexInv src c) :
    LexInv src ({ c with start := c.position } : Cursor) := by
  obtain ⟨h1, h2, h3, h4, h5⟩ := h
  exact ⟨h1, Nat.le_refl _, h3, h4, h5⟩

/-- `skipWhitespace` preserves the cursor invariant. -/
theorem skipWhitespace_inv (src : List Char) (c : Cursor) (h : LexInv src c) :
    LexInv src (skipWhitespace src c) :=
  skipWhitespaceGo_inv src _ c h

/-- Master lemma: with sufficient fuel and an invariant cursor,
`nextTokenGo` returns an invariant cursor, and any token other than the
`UNKNOWN` error token is the `makeToken` of the final cursor: its lexeme
is exactly the source span `[start, position)` and its line/column are the
final cursor's (column measured back across the lexeme). -/
theorem nextTokenGo_post (src : List Char) :
    ∀ (fuel : Nat) (c : Cursor) (t : Token) (c' : Cursor),
      src.length + 1 ≤ fuel + c.position → LexInv src c →
      nextTokenGo src fuel c = (t, c') →
      LexInv src c' ∧ (t.type ≠ .UNKNOWN →
        t.lexeme = substr src c'.start (c'.position - c'.start) ∧
        t.line = c'.line ∧ t.column = c'.column - (t.lexeme.length : Int)) := by
  intro fuel
  induction fuel with
  | zero =>
    intro c t c' hsuf hInv heq
    rw [nextTokenGo] at heq
    cases heq
    refine ⟨LexInv.start_catchup src c hInv, fun _ => ⟨?_, rfl, ?_⟩⟩
    · show ("" : String) = substr src c.position (c.position - c.position)
      simp [substr, Nat.sub_self]
    · show c.column = c.column - (("" : String).length : Int)
      simp
  | succ fuel ih =>
    intro c t c' hsuf hInv heq
    rw [nextTokenGo] at heq
    simp only [] at heq
    have hInv2 : LexInv src ({ skipWhitespace src c with
        start := (skipWhitespace src c).position } : Cursor) :=
      LexInv.start_catchup src _ (skipWhitespace_inv src c hInv)
    split at heq
    next hend =>
      cases heq
      exact ⟨hInv2, fun _ => ⟨rfl, rfl, rfl⟩⟩
    next hend =>
      have hlt : (skipWhitespace src c).position < src.length := by
        by_contra hge
        refine hend ?_
        show isAtEnd src ({ skipWhitespace src c with
          start := (skipWhitespace src c).position } : Cursor) = true
        simp only [isAtEnd, ge_iff_le, decide_eq_true_eq]
        omega
      have hpk := (skipWhitespaceGo_post src (src.length + 1 - c.position) c (by omega)).2.2.2
      have hch : src.getD ({ skipWhitespace src c with
          start := (skipWhitespace src c).position } : Cursor).position '\x00' ≠ '\n' := by
        have hpe : peek src ({ skipWhitespace src c with
            start := (skipWhitespace src c).position } : Cursor) ≠ '\n' := hpk
        rwa [peek_of_not_at_end src ({ skipWhitespace src c with
          start := (skipWhitespace src c).position } : Cursor) hlt] at hpe
      have hAdv : LexInv src (advOne { skipWhitespace src c with
          start := (skipWhitespace src c).position }) :=
        LexInv.advOne_pres src _ hInv2 hlt (fun _ => hch)
      have hadv : (advOne { skipWhitespace src c with
          start := (skipWhitespace src c).position }).position =
          (skipWhitespace src c).position + 1 := rfl
      rcases hscan : scanToken src (src.getD ({ skipWhitespace src c with
          start := (skipWhitespace src c).position } : Cursor).position '\x00')
          (advOne { skipWhitespace src c with start := (skipWhitespace src c).position }) with r | c4
      · rw [hscan] at heq
        obtain ⟨rt, rc⟩ := r
        simp only [] at heq
        cases heq
        exact scanToken_inl_post src _ _ t c' hAdv (by omega) hscan
      · rw [hscan] at heq
        simp only [] at heq
        have hmono1 := skipWhitespace_position_mono src c
        have hmono2 := scanToken_inr_position src _ _ c4 hscan
        exact ih c4 t c' (by omega) (scanToken_inr_inv src _ _ c4 hAdv hscan) heq

/-- The initial cursor satisfies the invariant. -/
theorem LexInv.init (src : List Char) : LexInv src initCursor :=
  ⟨Nat.zero_le _, Nat.le_refl _, Int.le_refl _, fun _ => rfl,
   fun _ i hi => absurd hi (Nat.not_lt_zero i)⟩

/-- Every token of the iterated `nextToken` stream (from the initial
cursor) satisfies the master post-condition relative to the cursor it
leaves behind. -/
theorem lexIter_post (src : List Char) : ∀ (n : Nat),
    LexInv src (lexIter src initCursor n).2 ∧
    ((lexIter src initCursor n).1.type ≠ .UNKNOWN →
      (lexIter src initCursor n).1.lexeme =
        substr src (lexIter src initCursor n).2.start
          ((lexIter src initCursor n).2.position - (lexIter src initCursor n).2.start) ∧
      (lexIter src initCursor n).1.line = (lexIter src initCursor n).2.line ∧
      (lexIter src initCursor n).1.column =
        (lexIter src initCursor n).2.column -
          (((lexIter src initCursor n).1.lexeme.length : Nat) : Int)) := by
  intro n
  induction n with
  | zero =>
    exact nextTokenGo_post src (src.length + 1 - initCursor.position) initCursor
      (lexIter src initCursor 0).1 (lexIter src initCursor 0).2
      (by omega) (LexInv.init src) rfl
  | succ n ih =>
    have hpos : (lexIter src initCursor n).2.position ≤ src.length := ih.1.1
    exact nextTokenGo_post src
      (src.length + 1 - (lexIter src initCursor n).2.position) (lexIter src initCursor n).2
      (lexIter src initCursor (n + 1)).1 (lexIter src initCursor (n + 1)).2
      (by omega) ih.1 rfl

/-- A Boolean `takeWhile` keeps the whole list when every element
satisfies the predicate. -/
theorem takeWhile_of_all {α : Type} (p : α → Bool) :
    ∀ (l : List α), (∀ x ∈ l, p x = true) → l.takeWhile p = l := by
  intro l
  induction l with
  | nil => intro _; rfl
  | cons a l ih =>
    intro h
    rw [List.takeWhile_cons, if_pos (h a (List.mem_cons_self a l)),
        ih (fun x hx => h x (List.mem_cons_of_mem a hx))]

/-- When no newline occurs before offset `s`, the 1-based column of
offset `s` is `s + 1`. -/
theorem colOfPos_of_no_newline (src : List Char) (s : Nat) (hs : s ≤ src.length)
    (h : ∀ i, i < s → src.getD i '\x00' ≠ '\n') : colOfPos src s = s + 1 := by
  unfold colOfPos
  have hall : ∀ x ∈ (src.take s).reverse, (fun ch => decide (ch ≠ '\n')) x = true := by
    intro x hx
    rw [List.mem_reverse] at hx
    obtain ⟨i, hi, hgx⟩ := List.mem_iff_getElem.mp hx
    have hi2 : i < s ∧ i < src.length := by
      rw [List.length_take, Nat.lt_min] at hi
      exact hi
    have hgd : src.getD i '\x00' = x := by
      rw [List.getD_eq_getElem src '\x00' hi2.2, ← List.getElem_take src, hgx]
    have := h i hi2.1
    rw [hgd] at this
    simpa using this
  rw [takeWhile_of_all _ _ hall, List.length_reverse, List.length_take]
  omega

end Lexer

/-- Claim C4 (amended): for every token of the `nextToken()` stream other
than the `UNKNOWN` error token, the token's text is the exact source
substring spanning `[start, position)` of the lexer cursor it leaves
behind, and — as long as the lexer is still on line 1 — its column is the
1-based column of the token's first character.  (Amendments: error tokens
carry a message, not a source span, and from line 2 onwards the recorded
column is off by one.) -/
theorem claim4_token_text_and_column (src : List Char) (n : Nat) :
    ((Lexer.lexIter src initCursor n).1.type ≠ .UNKNOWN →
      (Lexer.lexIter src initCursor n).1.lexeme =
        substr src (Lexer.lexIter src initCursor n).2.start
          ((Lexer.lexIter src initCursor n).2.position -
            (Lexer.lexIter src initCursor n).2.start)) ∧
    ((Lexer.lexIter src initCursor n).1.type ≠ .UNKNOWN →
      (Lexer.lexIter src initCursor n).1.line = 1 →
      (Lexer.lexIter src initCursor n).1.column =
        (colOfPos src (Lexer.lexIter src initCursor n).2.start : Int)) := by
  obtain ⟨hInv, hpay⟩ := Lexer.lexIter_post src n
  refine ⟨fun hne => (hpay hne).1, fun hne hline => ?_⟩
  obtain ⟨hlex, hln, hcol⟩ := hpay hne
  obtain ⟨h1, h2, h3, h4, h5⟩ := hInv
  have hline2 : (Lexer.lexIter src initCursor n).2.line = 1 := by
    rw [← hln]; exact hline
  have hcolumn := h4 hline2
  have hlen : (Lexer.lexIter src initCursor n).1.lexeme.length =
      (Lexer.lexIter src initCursor n).2.position -
        (Lexer.lexIter src initCursor n).2.start := by
    rw [hlex]
    show ((src.drop (Lexer.lexIter src initCursor n).2.start).take
      ((Lexer.lexIter src initCursor n).2.position -
        (Lexer.lexIter src initCursor n).2.start) : List Char).length = _
    rw [List.length_take, List.length_drop]
    omega
  have hcop : colOfPos src (Lexer.lexIter src initCursor n).2.start =
      (Lexer.lexIter src initCursor n).2.start + 1 :=
    Lexer.colOfPos_of_no_newline src _ (by omega)
      (fun i hi => h5 hline2 i (by omega))
  rw [hcol, hcolumn, hlen, hcop]
  omega

/-- Claim C4 as literally stated is false on two counts: on source `@`
the first token is the `UNKNOWN` error token whose text is the fixed
message `Unexpected character.`, not the source substring `@`; and on
source `a`‑newline‑`b` the second token (`b`, line 2) records column 2
while the 1-based column of its first character is 1 (the newline
handler resets the column and then `advance()` bumps it again). -/
theorem claim4_counterexample_text_and_column :
    (Lexer.lexIter "@".toList initCursor 0 =
       (⟨.UNKNOWN, "Unexpected character.", 1, 2⟩, ⟨1, 0, 1, 2⟩) ∧
     substr "@".toList 0 (1 - 0) = "@" ∧
     ("Unexpected character." : String) ≠ "@") ∧
    (Lexer.lexIter "a\nb".toList initCursor 1 =
       (⟨.IDENTIFIER, "b", 2, 2⟩, ⟨3, 2, 2, 3⟩) ∧
     colOfPos "a\nb".toList 2 = 1 ∧
     ((2 : Int) ≠ ((1 : Nat) : Int))) :=
  ⟨⟨rfl, rfl, by decide⟩, ⟨rfl, rfl, by decide⟩⟩

/-- Concrete instance of the amended C4 on source `say`: the first token
is the keyword `SAY`, its lexeme is the span `[0, 3)` of the source, and
its column is the 1-based column of offset 0. -/
theorem claim4_token_text_and_column_witness :
    (Lexer.lexIter "say".toList initCursor 0).1.type ≠ .UNKNOWN ∧
    (Lexer.lexIter "say".toList initCursor 0).1.lexeme =
      substr "say".toList (Lexer.lexIter "say".toList initCursor 0).2.start
        ((Lexer.lexIter "say".toList initCursor 0).2.position -
          (Lexer.lexIter "say".toList initCursor 0).2.start) ∧
    (Lexer.lexIter "say".toList initCursor 0).1.column =
      (colOfPos "say".toList (Lexer.lexIter "say".toList initCursor 0).2.start : Int) :=
  ⟨by decide,
   (claim4_token_text_and_column "say".toList 0).1 (by decide),
   (claim4_token_text_and_column "say".toList 0).2 (by decide) (by decide)⟩

end StoryScript
